import Mathlib

/-!
# reku (requ): a jQuery.ajax style adapter over superagent

A shallow embedding of `src/index.js` and a verification of its dispatch and
completion handling.

Modelling conventions

* JavaScript values are the inductive type `JsVal`.  Numbers are the
  non-negative safe integers (below `2 ^ 53`), for which `String(n)` is the
  plain decimal expansion; functions are opaque identifiers; arrays and objects
  with inherited or overridden members are not modelled.  Values are compared by
  structure; the one alias the program relies on, between the settings object
  and the default context, is kept explicitly (`ContextRef`).
* An object is an association list read as a sequence of assignments: the last
  entry for a key is its value, and writing an existing key keeps its position.
* The options of a dispatch are an arbitrary value.  The response delivered to
  the completion handler has the type its documentation gives it, a superagent
  response: a body, an optional XHR-like object and an optional server-side
  response whose header values are strings.
* Effects on the outside world (console output, calls of registered callbacks,
  calls on the native request) are recorded, in order, as `Event`s and as the
  call log of the native request.
* A JavaScript exception is an `Except.error`.
* The receiver of a function of the adapter is a `ThisVal`. A function made by
  `_.bind` is a `BoundFn`: the function it wraps and the receiver it was bound
  to.
* Callbacks are opaque. `_onSARequestEnd` records the calls of callbacks and
  takes them to return. `_onSARequestEndThrowing` is the same handler with
  callbacks that may throw, the behaviour of the functions being a parameter; an
  exception then leaves the handler with the assignments made so far.
* `console.assert` follows the Console standard: a failed assertion is
  reported and execution continues.
* `toUpperCase` maps the ASCII letters, which cover the six method names.
-/

namespace Reku

/-! ## Values -/

/-- A JavaScript value. -/
inductive JsVal where
  | undefined
  | null
  | bool (b : Bool)
  | num (n : Nat)
  | str (s : String)
  | fn (id : Nat)
  | obj (fields : List (String × JsVal))

/-- An object: its own enumerable properties in insertion order. -/
abbrev Obj := List (String × JsVal)

/-- A JavaScript exception. `unmodelled` marks a path whose behaviour depends on
the version of a library outside this repository. -/
inductive JsError where
  | typeError
  | unmodelled

/-- Truthiness of a value (the `ToBoolean` conversion). -/
def truthy : JsVal → Bool
  | .undefined => false
  | .null => false
  | .bool b => b
  | .num n => n != 0
  | .str s => s.data != []
  | .fn _ => true
  | .obj _ => true

/-- The expression `a || b`. -/
def jsOr (a b : JsVal) : JsVal := if truthy a then a else b

/-- Test `typeof v === 'string'`. -/
def isString : JsVal → Bool
  | .str _ => true
  | _ => false

/-- Test `typeof v === 'function'`. -/
def isFunction : JsVal → Bool
  | .fn _ => true
  | _ => false

/-- Own-property test `k in o` for an object. -/
def Obj.has (o : Obj) (k : String) : Bool := o.any (fun p => p.1 == k)

/-- Property read `o[k]`; a missing property reads as `undefined`. -/
def Obj.get (o : Obj) (k : String) : JsVal :=
  o.foldl (fun acc p => if p.1 == k then p.2 else acc) .undefined

/-- Property write `o[k] = v`. -/
def Obj.set (o : Obj) (k : String) (v : JsVal) : Obj :=
  if o.has k then o.map (fun p => if p.1 == k then (k, v) else p) else o ++ [(k, v)]

/-- The names of the properties of an object. -/
def Obj.keys (o : Obj) : List String := o.map Prod.fst

/-- Underscore `_.extend(target, source)` for an object source: every property
of the source is assigned onto the target, in order. -/
def Obj.extend (target source : Obj) : Obj :=
  source.foldl (fun acc p => acc.set p.1 p.2) target

/-- Underscore `_.pick(o, keys...)`: the listed properties that are present. -/
def Obj.pick (o : Obj) (ks : List String) : Obj :=
  ks.foldl (fun acc k => if o.has k then acc.set k (o.get k) else acc) []

/-- Property read `v.k` on a value that is known not to be null or undefined;
primitives have none of the properties read by this program. -/
def JsVal.get (v : JsVal) (k : String) : JsVal :=
  match v with
  | .obj fields => Obj.get fields k
  | _ => .undefined

/-- The decimal expansion of a number, `String(n)`. -/
def numToString (n : Nat) : String := String.mk (Nat.toDigits 10 n)

/-- The conversion `String(v)`. Functions are ES5 functions, whose source text
starts with the keyword. -/
def jsString : JsVal → String
  | .undefined => "undefined"
  | .null => "null"
  | .bool true => "true"
  | .bool false => "false"
  | .num n => numToString n
  | .str s => s
  | .fn _ => "function"
  | .obj _ => "[object Object]"

/-- The method `s.charAt(0)`: the first character, or the empty string. -/
def charAt0 (s : String) : List Char := s.data.take 1

/-- White space and line terminators of the language, which `Number` trims. -/
def isJsWhiteSpace (c : Char) : Bool :=
  [0x9, 0xA, 0xB, 0xC, 0xD, 0x20, 0xA0, 0x1680, 0x2028, 0x2029, 0x202F, 0x205F, 0x3000,
    0xFEFF].contains c.toNat || (0x2000 ≤ c.toNat && c.toNat ≤ 0x200A)

/-- The conversion `Number(c)` of a string of at most one character; `none` is
`NaN`. -/
def jsNumberOfChar : List Char → Option Nat
  | [] => some 0
  | c :: _ =>
    if c.isDigit then some (c.toNat - 48)
    else if isJsWhiteSpace c then some 0
    else none

/-! ## Static tables -/

/-- The table `methodsMap`. -/
def methodsMap : List (String × String) :=
  [("GET", "get"), ("POST", "post"), ("PUT", "put"), ("DELETE", "del"), ("PATCH", "patch"),
    ("HEAD", "head")]

/-- The table `dataTypeAcceptsMap`. -/
def dataTypeAcceptsMap : List (String × String) :=
  [("html", "text/html"), ("xml", "text/xml"), ("text", "text/plain"),
    ("json", "application/json")]

/-- The list `methodsWithBody`. -/
def methodsWithBody : List String := ["POST", "PUT", "PATCH"]

/-- The table `Request._statusKeyVals`. -/
def _statusKeyVals : List (Nat × String) :=
  [(200, "OK"), (201, "Created"), (202, "Accepted"), (204, "No Content"),
    (301, "Moved Permanently"), (302, "Found"), (400, "Bad Request"), (401, "Unauthorized"),
    (403, "Forbidden"), (404, "Not Found"), (405, "Method Not Allowed"),
    (408, "Request Timeout"), (412, "Precondition Failed"), (500, "Internal Server Error"),
    (502, "Bad Gateway"), (503, "Service Unavailable"), (504, "Gateway Timeout")]

/-- The list `Request._allowedOptions`. -/
def _allowedOptions : List String :=
  ["url", "type", "dataType", "contentType", "data", "success", "error", "complete", "headers",
    "context"]

/-- The list `Request._jQueryAjaxOptions`. -/
def _jQueryAjaxOptions : List String :=
  ["accepts", "async", "beforeSend", "cache", "complete", "contents", "contentType", "context",
    "converters", "crossDomain", "data", "dataFilter", "dataType", "error", "global", "headers",
    "ifModified", "isLocal", "jsonp", "jsonpCallback", "mimeType", "password", "processData",
    "scriptCharset", "statusCode", "success", "timeout", "traditional", "type", "url",
    "username", "xhr", "xhrFields"]

/-- The object `Request._defaultSettings`. -/
def _defaultSettings : Obj :=
  [("async", .bool true),
    ("accepts", .obj [("*", .str "*/*"), ("html", .str "text/html"),
      ("json", .str "application/json, text/javascript"),
      ("script", .str
        "text/javascript, application/javascript, application/ecmascript, application/x-ecmascript"),
      ("text", .str "text/plain"), ("xml", .str "application/xml, text/xml")]),
    ("type", .str "GET"), ("global", .bool false), ("crossDomain", .bool false),
    ("processData", .bool true)]

/-! ## Responses, handles and the deferred -/

/-- The server-side response object `response.res` (a node response as superagent
decorates it); header values are strings. -/
structure Res where
  statusCode : JsVal
  text : JsVal
  body : JsVal
  headers : Option (List (String × String))

/-- A superagent response: its parsed body and whichever of the two shapes the
library delivered, `xhr` in a browser and `res` on a server. -/
structure SAResponse where
  body : JsVal
  xhr : Option Obj
  res : Option Res

/-- The promise-like handle `requXhr` returned to the caller. `props` holds the
response-shape properties copied onto it at completion; `superagentResponse` is
`none` until completion, then the response the library delivered (itself absent
when the library delivered none). -/
structure Handle where
  readyState : Nat
  props : Obj
  superagentResponse : Option (Option SAResponse)
  superagentError : Option JsVal
  abortBound : Bool

/-- An argument passed to a settlement: a plain value or the handle. -/
inductive Arg where
  | val (v : JsVal)
  | handle (h : Handle)

/-- The receiver of the deferred callbacks: the settings object of the dispatch
or a value supplied by the caller. -/
inductive Receiver where
  | settings (s : JsVal)
  | value (v : JsVal)

/-- The slot `_context` of an instance. It is assigned `options.context ||
self._settings`, so it either aliases the settings object (and follows its later
mutation) or holds the caller's context. -/
inductive ContextRef where
  | settingsRef
  | provided (v : JsVal)

/-- State of a deferred. -/
inductive Settlement where
  | pending
  | resolved (context : Receiver) (args : List Arg)
  | rejected (context : Receiver) (args : List Arg)

/-- The three subscription points of a promise. -/
inductive SubKind where
  | done
  | fail
  | always

/-- An observable effect. -/
inductive Event where
  | consoleWarn (msg : String)
  | consoleError (msg : String)
  | assertFailed (msg : String)
  | beforeRequest (options : JsVal)
  | afterSARequest (err : JsVal) (response : Option SAResponse)
  | ajax (options : JsVal)
  | invoke (callback : JsVal) (this : Receiver) (args : List Arg)

/-- Modelled from the spec: the deferred primitive of the library
`simply-deferred`, offering resolve-with(context, args), reject-with(context,
args) and a promise view with `done`, `fail` and `always` subscription points,
whose callbacks receive the args positionally and run with the supplied context
as receiver. A settled deferred ignores further settlements. -/
structure Deferred where
  state : Settlement
  subscriptions : List (SubKind × JsVal)

/-- A fresh deferred, `new Deferred()`. -/
def Deferred.fresh : Deferred := ⟨.pending, []⟩

/-- The callbacks that run on resolution, in subscription order. -/
def Deferred.onResolve (d : Deferred) : List JsVal :=
  d.subscriptions.filterMap (fun s =>
    match s.1 with
    | .done => some s.2
    | .always => some s.2
    | .fail => none)

/-- The callbacks that run on rejection, in subscription order. -/
def Deferred.onReject (d : Deferred) : List JsVal :=
  d.subscriptions.filterMap (fun s =>
    match s.1 with
    | .fail => some s.2
    | .always => some s.2
    | .done => none)

/-- The method `dfd.resolveWith(context, args)`. -/
def Deferred.resolveWith (d : Deferred) (context : Receiver) (args : List Arg) :
    Deferred × List Event :=
  match d.state with
  | .pending =>
    ({ d with state := .resolved context args },
      d.onResolve.map (fun cb => Event.invoke cb context args))
  | _ => (d, [])

/-- The method `dfd.rejectWith(context, args)`. -/
def Deferred.rejectWith (d : Deferred) (context : Receiver) (args : List Arg) :
    Deferred × List Event :=
  match d.state with
  | .pending =>
    ({ d with state := .rejected context args },
      d.onReject.map (fun cb => Event.invoke cb context args))
  | _ => (d, [])

/-- A subscription `promise.done(cb)`, `promise.fail(cb)` or `promise.always(cb)`:
recorded while pending, run at once when the deferred is already settled that
way. -/
def Deferred.subscribe (d : Deferred) (kind : SubKind) (cb : JsVal) : Deferred × List Event :=
  match d.state, kind with
  | .pending, _ => ({ d with subscriptions := d.subscriptions ++ [(kind, cb)] }, [])
  | .resolved c a, .done => (d, [.invoke cb c a])
  | .resolved c a, .always => (d, [.invoke cb c a])
  | .rejected c a, .fail => (d, [.invoke cb c a])
  | .rejected c a, .always => (d, [.invoke cb c a])
  | _, _ => (d, [])

/-! ## The underlying libraries -/

/-- The value of `this` in a function of the adapter, as far as the program
tells receivers apart: the instance of `requ.Request` whose method is running, or
no receiver, the `undefined` of a strict-mode function called without one. -/
inductive ThisVal where
  | adapter
  | unbound

/-- A function made by underscore `_.bind(func, context)`. -/
structure BoundFn where
  func : JsVal
  context : ThisVal

/-- A call of a function: the function, its receiver and its arguments. -/
structure FnCall where
  func : JsVal
  this : ThisVal
  args : List JsVal

/-- Underscore `_.bind(func, context)`, which throws a TypeError when `func` is
not a function. -/
def _bind (func : JsVal) (context : ThisVal) : Except JsError BoundFn :=
  match func with
  | .fn _ => .ok ⟨func, context⟩
  | _ => .error .typeError

/-- A call of a function made by `_.bind`, whatever the receiver of that call:
one call of the function it wraps, with the bound context as receiver and the
arguments of the call. -/
def BoundFn.invoke (f : BoundFn) (args : List JsVal) : List FnCall :=
  [⟨f.func, f.context, args⟩]

/-- Underscore `_.each(obj, iteratee, context)` on an object: the iteratee is
called as `iteratee(value, key)` for each property in order, with `context` as its
`this`; without a context the iteratee has no receiver. The iteratee acts on a
state and may throw. -/
def _each {σ : Type} (obj : Obj) (iteratee : ThisVal → JsVal → String → σ → Except JsError σ)
    (context : Option ThisVal) (init : σ) : Except JsError σ :=
  obj.foldlM (fun s p => iteratee (context.getD .unbound) p.2 p.1 s) init

/-- A call made on the native request. -/
inductive SACall where
  | on (event : String) (handler : BoundFn)
  | send (data : JsVal)
  | query (data : JsVal)
  | set (field : String) (value : JsVal)
  | endCall

/-- Modelled from the spec: the native request of the underlying HTTP request
library (superagent), built per HTTP method from a URL; a chainable object whose
methods attach a body, query parameters or a header, subscribe to an event and
register the completion callback, each returning the request itself. It keeps the
URL it was built with under `url`. -/
structure SARequest where
  methodFn : String
  url : JsVal
  calls : List SACall

/-- Record a call on the native request. -/
def SARequest.call (r : SARequest) (c : SACall) : SARequest :=
  { r with calls := r.calls ++ [c] }

/-- Modelled from the spec: URL query-string manipulation (library `qs`), parse
and stringify. -/
structure QueryString where
  parse : String → Obj
  stringify : Obj → String

/-- A parsed query string is an object: its keys are distinct. -/
def QueryString.ParsesToObject (qs : QueryString) : Prop :=
  ∀ s, (Obj.keys (qs.parse s)).Nodup

/-- The method `s.toUpperCase()`, on the ASCII letters. -/
def toUpperCase (s : String) : String := String.mk (s.data.map Char.toUpper)

/-- The method `s.split(c)` for a one-character separator. -/
def splitOnChar (c : Char) : List Char → List (List Char)
  | [] => [[]]
  | x :: xs =>
    if x = c then [] :: splitOnChar c xs
    else
      match splitOnChar c xs with
      | [] => [[x]]
      | seg :: segs => (x :: seg) :: segs

/-- The test `s.indexOf(pat) > -1`: the pattern occurs in the string. -/
def containsSubstring : List Char → List Char → Bool
  | [], pat => pat.isEmpty
  | c :: cs, pat => pat.isPrefixOf (c :: cs) || containsSubstring cs pat

/-- The properties that `_.extend` copies from a source value: those of an
object; nothing from undefined, null, a number, a boolean, a function or the
empty string. What it copies from a non-empty string depends on the version of
underscore. -/
def extendSource : JsVal → Except JsError Obj
  | .obj fields => .ok fields
  | .str s => if s.data = [] then .ok [] else .error .unmodelled
  | _ => .ok []

/-- Underscore `_.isEmpty(v)`. -/
def isEmpty : JsVal → Bool
  | .obj fields => fields.isEmpty
  | .str s => s.data.isEmpty
  | _ => true

/-- The function `extendURL(url, data)`. -/
def extendURL (qs : QueryString) (url data : JsVal) : Except JsError String :=
  match url with
  | .str u =>
    let urlArray := splitOnChar '?' u.data
    let queries : Obj :=
      match urlArray.get? 1 with
      | some q => if q != [] then qs.parse (String.mk q) else []
      | none => []
    match extendSource data with
    | .ok src => .ok (String.mk (urlArray.headD []) ++ "?" ++ qs.stringify (queries.extend src))
    | .error e => .error e
  | _ => .error .typeError

/-! ## The adapter -/

/-- The process-wide hooks and flags: the statics of `requ` and `requ.Request`.
A registered before-request callback is given by the value it returns for the
options it receives. -/
structure Config where
  _isBrowser : Bool
  useJQueryIfBrowser : Bool
  _jQueryAjax : Option (JsVal → JsVal)
  _onBeforeRequest : Option (JsVal → JsVal)
  _onAfterSARequest : JsVal
  _saEventListeners : Obj

/-- The function `requ.setSAEventListener(event, callback)`. -/
def setSAEventListener (cfg : Config) (event : String) (callback : JsVal) : Config :=
  { cfg with _saEventListeners := cfg._saEventListeners.set event callback }

/-- An instance of `requ.Request`. -/
structure Request where
  _settings : JsVal
  _request : Option SARequest
  _deferred : Option Deferred
  _requXhr : Option Handle
  _context : Option ContextRef

/-- The instance `new requ.Request()`. -/
def Request.new : Request := ⟨.undefined, none, none, none, none⟩

/-- The receiver that the slot `_context` denotes at this moment. -/
def Request.receiver (self : Request) : Receiver :=
  match self._context with
  | some (.provided v) => .value v
  | some .settingsRef => .settings self._settings
  | none => .value .undefined

/-- The method `_useRequestBodyForMethod(method)`. -/
def _useRequestBodyForMethod (method : JsVal) : Bool :=
  match method with
  | .str m => methodsWithBody.contains m
  | _ => false

/-- The method `_invokeBeforeRequestCallback(options)`. -/
def _invokeBeforeRequestCallback (cfg : Config) (options : JsVal) : JsVal × List Event :=
  match cfg._onBeforeRequest with
  | some callback => (jsOr (callback options) options, [.beforeRequest options])
  | none => (options, [])

/-- The method `_invokeAfterSARequestCallback(err, response)`. -/
def _invokeAfterSARequestCallback (cfg : Config) (err : JsVal) (response : Option SAResponse) :
    List Event :=
  if isFunction cfg._onAfterSARequest then [.afterSARequest err response] else []

/-- The method `_findStatusInfo(status)`. -/
def _findStatusInfo (status : JsVal) : Option (Nat × String) :=
  match status with
  | .num n => _statusKeyVals.find? (fun kv => kv.1 == n)
  | _ => none

/-- The method `_resStatusIsError(status)`. -/
def _resStatusIsError (status : JsVal) : Bool :=
  let strStatus := jsString status
  let firstNum := jsNumberOfChar (charAt0 strStatus)
  firstNum != some 2 && firstNum != some 3

/-- The read `res.headers['content-type']`. -/
def headerValue (headers : List (String × String)) (name : String) : Option String :=
  headers.foldl (fun acc p => if p.1 == name then some p.2 else acc) none

/-- The method `_getXhrPropertiesFromRes(res)`. -/
def _getXhrPropertiesFromRes (res : Res) : Obj :=
  let statusInfo := _findStatusInfo res.statusCode
  let props : Obj :=
    [("status", res.statusCode), ("statusCode", res.statusCode),
      ("statusText", .str (match statusInfo with
        | some info => info.2
        | none => "")),
      ("responseText", res.text), ("response", res.text)]
  match res.headers.bind (fun h => headerValue h "content-type") with
  | some contentType =>
    if truthy res.body && contentType.data != [] then
      if containsSubstring contentType.data "application/json".data then
        props.set "responseJSON" res.body
      else if containsSubstring contentType.data "application/xml".data
          || containsSubstring contentType.data "text/xml".data then
        props.set "responseXML" res.body
      else props
    else props
  | none => props

/-- The method `_getXhrPropertiesFromXhr(xhr)`. -/
def _getXhrPropertiesFromXhr (xhr : Obj) : Obj :=
  xhr.pick ["status", "statusCode", "statusText", "response", "responseText", "responseJSON",
    "responseXML"]

/-- The method `_onSARequestEnd(err, response)`, the completion handler, when the
callbacks it runs return: the calls of callbacks are recorded as events and are
not followed. `_onSARequestEndThrowing` is the handler with callbacks that may
throw. -/
def _onSARequestEnd (cfg : Config) (self : Request) (err : JsVal)
    (response : Option SAResponse) : Except JsError (Request × List Event) :=
  let ev0 := _invokeAfterSARequestCallback cfg err response
  let context := self.receiver
  let xhr : Option Obj := response.bind (fun r => r.xhr)
  match self._requXhr, self._deferred with
  | some requXhr, some dfd =>
    let requXhr : Handle :=
      match xhr, response.bind (fun r => r.res) with
      | none, some res => { requXhr with props := requXhr.props.extend (_getXhrPropertiesFromRes res) }
      | some x, _ => { requXhr with props := requXhr.props.extend (_getXhrPropertiesFromXhr x) }
      | none, none => requXhr
    let requXhr := { requXhr with readyState := 4, superagentResponse := some response }
    if truthy err then
      let requXhr := { requXhr with superagentError := some err }
      let (dfd, ev1) := dfd.rejectWith context [.handle requXhr, .val (.str "error"), .val err]
      .ok ({ self with _deferred := some dfd, _requXhr := none }, ev0 ++ ev1)
    else if _resStatusIsError (requXhr.props.get "statusCode") then
      let (dfd, ev1) := dfd.rejectWith context [.handle requXhr, .val (.str "error")]
      .ok ({ self with _deferred := some dfd, _requXhr := none }, ev0 ++ ev1)
    else
      match response with
      | some r =>
        let (dfd, ev1) :=
          dfd.resolveWith context [.val r.body, .val (.str "success"), .handle requXhr]
        .ok ({ self with _deferred := some dfd, _requXhr := none }, ev0 ++ ev1)
      | none => .error .typeError
  | _, _ => .error .typeError

/-- The method `_formatSettings(ajaxOptions)`. -/
def _formatSettings (ajaxOptions : JsVal) : Except JsError Obj :=
  match extendSource ajaxOptions with
  | .ok src =>
    let merged := (Obj.extend [] _defaultSettings).extend src
    match merged.get "type" with
    | .str t => .ok (merged.set "type" (.str (toUpperCase t)))
    | _ => .error .typeError
  | .error e => .error e

/-- The method `_makeSARequestInstance(method, url)`, calling
`superagent[method](url)`; the library has a builder for each entry of
`methodsMap`, and calling a missing builder throws. -/
def _makeSARequestInstance (methodFn : Option String) (url : JsVal) : Except JsError SARequest :=
  match methodFn with
  | some m => .ok ⟨m, url, []⟩
  | none => .error .typeError

/-- The method `_bindEventListeners(request)`, running with `this` as receiver:
`_.each(events, function (callback, event) { request.on(event, _.bind(callback,
this)); }, this)`. The `this` of the inner function is the one `_.each` gives
it. -/
def _bindEventListeners (cfg : Config) (this : ThisVal) (request : SARequest) :
    Except JsError SARequest :=
  let events := cfg._saEventListeners
  _each events (fun this callback event request =>
    match _bind callback this with
    | .ok handler => .ok (request.call (.on event handler))
    | .error e => .error e) (some this) request

/-- The condition of the assertion `options.contentType is required if
options.data is provided for PUT/POST`. -/
def contentTypeAssertion (data contentType : JsVal) (method : String) : Bool :=
  !truthy data || (truthy data && truthy contentType)
    || (truthy data && !_useRequestBodyForMethod (.str method))

/-- The method `_setHeaders(request, headers)`: one `set` per header of an
object. What `_.each` visits on a string or a function is array-like, and on
another primitive it depends on the version of underscore. -/
def _setHeaders (request : SARequest) (headers : JsVal) : Except JsError SARequest :=
  match headers with
  | .obj fields => .ok (fields.foldl (fun req p => req.call (.set p.1 p.2)) request)
  | .undefined => .ok request
  | .null => .ok request
  | _ => .error .unmodelled

/-- The method `_attachCallbacks(promise, options)`. -/
def _attachCallbacks (promise : Deferred) (options : Obj) : Deferred × List Event :=
  let onDone := jsOr (options.get "success") (options.get "done")
  let onFail := jsOr (options.get "error") (options.get "fail")
  let onComplete := jsOr (options.get "complete") (options.get "always")
  let (p1, e1) := if truthy onDone then promise.subscribe .done onDone else (promise, [])
  let (p2, e2) := if truthy onFail then p1.subscribe .fail onFail else (p1, [])
  let (p3, e3) := if truthy onComplete then p2.subscribe .always onComplete else (p2, [])
  (p3, e1 ++ e2 ++ e3)

/-- The method `_testAllowedOptions(options)`: the warnings it prints. -/
def _testAllowedOptions (options : JsVal) : List Event :=
  match options with
  | .obj fields =>
    ((Obj.keys fields).eraseDups.filter (fun key =>
      !_allowedOptions.contains key && _jQueryAjaxOptions.contains key)).map
      (fun key => Event.consoleWarn ("Options \"" ++ key ++ "\" is not supported by requ"))
  | _ => []

/-- The reports of a list of assertions: one event per assertion that fails. -/
def assertions (checks : List (Bool × String)) : List Event :=
  (checks.filter (fun c => !c.1)).map (fun c => Event.assertFailed c.2)

/-- The payload step of `sendUsingSuperAgent`: non-empty data goes to the body for
a method with a body, and otherwise to the query string, with the URL of the
settings rewritten. -/
def attachData (qs : QueryString) (method : String) (settings : Obj) (request : SARequest) :
    Except JsError (Obj × SARequest) :=
  let data := settings.get "data"
  if truthy data && !isEmpty data then
    if _useRequestBodyForMethod (.str method) then
      .ok (settings, request.call (.send data))
    else
      match extendURL qs (settings.get "url") data with
      | .ok url => .ok (settings.set "url" (.str url), request.call (.query data))
      | .error e => .error e
  else .ok (settings, request)

/-- The DELETE step of `sendUsingSuperAgent`: `options.headers = options.headers
|| {}` followed by `options.headers['Content-Length'] = 0`. In strict mode the
assignment throws on a primitive. -/
def forceContentLength (method : String) (settings : Obj) : Except JsError Obj :=
  if method = "DELETE" then
    match jsOr (settings.get "headers") (.obj []) with
    | .obj fields => .ok (settings.set "headers" (.obj (Obj.set fields "Content-Length" (.num 0))))
    | .fn _ => .error .unmodelled
    | _ => .error .typeError
  else .ok settings

/-- The two header steps of `sendUsingSuperAgent`: `Content-Type` when
contentType is set, then `Accepts` from the dataType map when dataType is set. -/
def setTypeHeaders (contentType dataType : JsVal) (request : SARequest) : SARequest :=
  let request :=
    if truthy contentType then request.call (.set "Content-Type" contentType) else request
  if truthy dataType then
    request.call (.set "Accepts"
      (match dataTypeAcceptsMap.lookup (jsString dataType) with
        | some mime => .str mime
        | none => .undefined))
  else request

/-- The step `if (options.headers) request = self._setHeaders(request,
options.headers)` of `sendUsingSuperAgent`. -/
def applyHeaders (settings : Obj) (request : SARequest) : Except JsError SARequest :=
  if truthy (settings.get "headers") then _setHeaders request (settings.get "headers")
  else .ok request

/-- The message of the contentType assertion. -/
def contentTypeMessage : String :=
  "options.contentType is required if options.data is provided for PUT/POST"

/-- The six assertions of `sendUsingSuperAgent`, in order, for the formatted
settings and the upper-cased method. -/
def dispatchAssertions (settings : Obj) (method : String) : List Event :=
  assertions
    [((methodsMap.lookup method).isSome, "options.type \"undefined\" not supported"),
      (isString (settings.get "url"), "options.url is required"),
      ((methodsMap.lookup method).isSome,
        "superagent version does not support method \"" ++ method ++ "\""),
      (contentTypeAssertion (settings.get "data") (settings.get "contentType") method,
        contentTypeMessage),
      (isString (settings.get "dataType"), "options.dataType is required"),
      ((dataTypeAcceptsMap.lookup (jsString (settings.get "dataType"))).isSome,
        "options.dataType value \"" ++ jsString (settings.get "dataType")
          ++ "\" is not supported")]

/-- The assignment `self._context = options.context || self._settings`. -/
def contextOf (settings : Obj) : ContextRef :=
  if truthy (settings.get "context") then .provided (settings.get "context") else .settingsRef

/-- The handle at the return of `sendUsingSuperAgent`: readyState 0 and `abort`
bound to the native request. -/
def Handle.dispatched : Handle := ⟨0, [], none, none, true⟩

/-- The method `sendUsingSuperAgent(options)`: the direct dispatch. Returns the
value returned to the caller (`none` is `null`), the instance afterwards and the
events. The methods of the instance are called on the instance (`self`), which is
their `this`. The chain methods of the native request return the request, so the
early exit on a falsy request is not taken. -/
def sendUsingSuperAgent (cfg : Config) (qs : QueryString) (self : Request) (options : JsVal) :
    Except JsError (Option Handle × Request × List Event) :=
  if self._requXhr.isSome then
    .ok (none, self, [.consoleError "Request on requ.Request instance already in progress"])
  else do
    let (options, ev0) := _invokeBeforeRequestCallback cfg options
    let settings ← _formatSettings options
    let dfd := Deferred.fresh
    let context := contextOf settings
    let method ←
      match settings.get "type" with
      | .str m => pure (toUpperCase m)
      | _ => throw JsError.typeError
    let methodFn := methodsMap.lookup method
    let ev1 := dispatchAssertions settings method
    let request ← _makeSARequestInstance methodFn (settings.get "url")
    let request ← _bindEventListeners cfg .adapter request
    let (settings1, request) ← attachData qs method settings request
    let request :=
      setTypeHeaders (settings.get "contentType") (settings.get "dataType") request
    let settings2 ← forceContentLength method settings1
    let request ← applyHeaders settings2 request
    let request := request.call .endCall
    let (dfd, ev2) := _attachCallbacks dfd settings2
    pure (some Handle.dispatched,
      { _settings := .obj settings2, _request := some request, _deferred := some dfd,
        _requXhr := some Handle.dispatched, _context := some context },
      ev0 ++ ev1 ++ ev2)

/-- The value returned by `send`. -/
inductive SendResult where
  | handle (h : Option Handle)
  | external (v : JsVal)

/-- The method `send(options)`. Calling a missing `_jQueryAjax` throws. -/
def send (cfg : Config) (qs : QueryString) (self : Request) (options : JsVal) :
    Except JsError (SendResult × Request × List Event) :=
  let ev0 := _testAllowedOptions options
  if cfg._isBrowser && cfg.useJQueryIfBrowser then
    let ev1 := assertions
      [(cfg._jQueryAjax.isSome, "jQuery is required if \"requ.useJQueryIfBrowser\" is true")]
    let (options, ev2) := _invokeBeforeRequestCallback cfg options
    let self := { self with _settings := options }
    match cfg._jQueryAjax with
    | some ajax => .ok (.external (ajax options), self, ev0 ++ ev1 ++ ev2 ++ [.ajax options])
    | none => .error .typeError
  else
    match sendUsingSuperAgent cfg qs self options with
    | .ok (h, self, ev) => .ok (.handle h, self, ev0 ++ ev)
    | .error e => .error e

/-- The module function `requ(options)`, `new requ.Request().send(options)`. -/
def requ (cfg : Config) (qs : QueryString) (options : JsVal) :
    Except JsError (SendResult × Request × List Event) :=
  send cfg qs Request.new options

/-- The method `getRequestSettings()`. -/
def getRequestSettings (self : Request) : JsVal := self._settings

/-- The method `getSARequestFullURL()`; `none` is `null`. -/
def getSARequestFullURL (qs : QueryString) (self : Request) : Except JsError (Option JsVal) :=
  match self._request with
  | some request =>
    if truthy request.url then
      let settings := self._settings
      if truthy settings && truthy (settings.get "data")
          && !_useRequestBodyForMethod (settings.get "type") then
        match extendURL qs request.url (settings.get "data") with
        | .ok url => .ok (some (.str url))
        | .error e => .error e
      else .ok (some request.url)
    else .ok none
  | none => .ok none

/-- The method `getSARequestPayload()`; `none` is `null`. -/
def getSARequestPayload (self : Request) : Option JsVal :=
  let settings := self._settings
  if truthy settings && _useRequestBodyForMethod (settings.get "type")
      && truthy (settings.get "data") then
    some (settings.get "data")
  else none

/-! ## Notions of the specification and fixtures of the test suite -/

/-- The leading decimal digit of a number. -/
def leadingDigit (n : Nat) : Nat :=
  if n < 10 then n else leadingDigit (n / 10)
termination_by n
decreasing_by omega

/-- The query string of a URL: what follows its first question mark. -/
def queryStringOf (url : String) : String :=
  String.mk ((url.data.dropWhile (fun c => c != '?')).drop 1)

/-- The instance left by a direct dispatch on a new instance. -/
def dispatched (cfg : Config) (qs : QueryString) (options : JsVal) : Request :=
  match sendUsingSuperAgent cfg qs Request.new options with
  | .ok (_, self, _) => self
  | .error _ => Request.new

/-- A query-string library for flat parameters, used to evaluate the examples:
`k=v` pairs joined by `&`, without escaping. -/
def plainQs : QueryString where
  parse := fun s =>
    ((splitOnChar '&' s.data).filter (fun seg => seg != [])).foldl (fun acc seg =>
      let kv := splitOnChar '=' seg
      acc.set (String.mk (kv.headD [])) (.str (String.mk ((kv.drop 1).headD [])))) []
  stringify := fun o =>
    String.mk (List.intercalate ['&']
      (o.map (fun p => p.1.data ++ ['='] ++ (jsString p.2).data)))

/-- The options of the test suite: `dataType: 'json', url: 'my/url', type: 'get'`. -/
def testOptions : Obj :=
  [("dataType", .str "json"), ("url", .str "my/url"), ("type", .str "get")]

/-- A server environment without registered hooks. -/
def serverConfig : Config := ⟨false, true, none, none, .undefined, []⟩

/-- The environment of the test suite for the direct dispatch: a browser with
pass-through disabled. -/
def directConfig : Config := ⟨true, false, none, none, .undefined, []⟩

/-- The body `fakeResponseBody` of the test suite, an object with `foo: 1`. -/
def fakeResponseBody : JsVal := .obj [("foo", .num 1)]

/-- The response `fakeResponseObj` of the test suite, with its XHR-like object. -/
def fakeResponseObj : SAResponse :=
  { body := fakeResponseBody
    xhr := some [("statusText", .str "OK"), ("statusCode", .num 200), ("status", .num 200),
      ("responseJSON", fakeResponseBody), ("responseText", .str "\x7b\"foo\":1\x7d")]
    res := none }

/-- A plain server-side response with the given status code and text. -/
def plainResponse (body : JsVal) (statusCode : Nat) (text : String) : SAResponse :=
  { body := body, xhr := none, res := some ⟨.num statusCode, .str text, .undefined, none⟩ }

/-- A response carrying a browser XMLHttpRequest, which has `status` but no
`statusCode`. -/
def nativeXhrResponse : SAResponse :=
  { body := fakeResponseBody
    xhr := some [("status", .num 200), ("statusText", .str "OK"),
      ("responseText", .str "\x7b\"foo\":1\x7d")]
    res := none }

/-- The bodies the native request received through `send`, in order. -/
def SARequest.sent (r : SARequest) : List JsVal :=
  r.calls.filterMap (fun c =>
    match c with
    | .send d => some d
    | _ => none)

/-- The parameters the native request received through `query`, in order. -/
def SARequest.queried (r : SARequest) : List JsVal :=
  r.calls.filterMap (fun c =>
    match c with
    | .query d => some d
    | _ => none)

/-- The options objects passed to the external ajax function, in order. -/
def ajaxCalls (ev : List Event) : List JsVal :=
  ev.filterMap (fun e =>
    match e with
    | .ajax o => some o
    | _ => none)

/-- The options a dispatch works with: what the before-request callback made of
the options of the caller. -/
def effectiveOptions (cfg : Config) (options : JsVal) : JsVal :=
  (_invokeBeforeRequestCallback cfg options).1

/-- The options merged over the defaults, `_.extend({}, Request._defaultSettings,
options)`, for an options object. -/
def mergedOptions (src : Obj) : Obj := (Obj.extend [] _defaultSettings).extend src

/-- The data model of the options of a direct dispatch: an object whose type is a
string naming a supported method in any letter case, whose url is a string, whose
data is absent or an object, whose headers are absent or an object; and every
registered event listener is a function. -/
def wellTyped (cfg : Config) (o : JsVal) : Bool :=
  match o with
  | .obj src =>
    (match (mergedOptions src).get "type" with
      | .str t => (methodsMap.lookup (toUpperCase t)).isSome
      | _ => false)
    && isString (Obj.get src "url")
    && (match Obj.get src "data" with
      | .undefined => true
      | .obj _ => true
      | _ => false)
    && (match Obj.get src "headers" with
      | .undefined => true
      | .obj _ => true
      | _ => false)
    && cfg._saEventListeners.all (fun p => isFunction p.2)
  | _ => false

/-- The second request was built like the first and received the same bodies
and query parameters. -/
def SARequest.sameTraffic (r r' : SARequest) : Prop :=
  r'.methodFn = r.methodFn ∧ r'.url = r.url ∧ r'.sent = r.sent ∧ r'.queried = r.queried

/-- A browser environment with pass-through enabled, whose external ajax function
returns a promise-like object that records the url it was given. -/
def passThroughConfig : Config :=
  ⟨true, true, some (fun o => .obj [("jqXHR", o.get "url")]), none, .undefined, []⟩

/-- The options of the test of the body methods: type `post`, data `bar: 1` and
contentType `application/json`. -/
def postOptions : Obj :=
  [("dataType", .str "json"), ("url", .str "my/url"), ("type", .str "post"),
    ("data", .obj [("bar", .num 1)]), ("contentType", .str "application/json")]

/-- The test options with type `post` and data `bar: 1` but no contentType. -/
def uncheckedPostOptions : Obj :=
  [("dataType", .str "json"), ("url", .str "my/url"), ("type", .str "post"),
    ("data", .obj [("bar", .num 1)])]

/-- The test options with data `baz: 4`, sent as query parameters. -/
def queryOptions : Obj :=
  [("dataType", .str "json"), ("url", .str "my/url"), ("type", .str "get"),
    ("data", .obj [("baz", .num 4)])]

/-- Options whose url has a query string that contains a question mark:
`my/url?q=what?&page=2`, with data `baz: 4`. -/
def questionMarkOptions : Obj :=
  [("dataType", .str "json"), ("url", .str "my/url?q=what?&page=2"), ("type", .str "get"),
    ("data", .obj [("baz", .num 4)])]

/-- The test options with type `delete`. -/
def deleteOptions : Obj :=
  [("dataType", .str "json"), ("url", .str "my/url"), ("type", .str "delete")]

/-- The test options with the context `name: 'whoopsie-daisy'`. -/
def contextOptions : Obj :=
  [("dataType", .str "json"), ("url", .str "my/url"), ("type", .str "get"),
    ("context", .obj [("name", .str "whoopsie-daisy")])]

/-- EffectiveSettings as the specification describes it: the options merged over
the defaults, with type upper-cased and url equal to the query-augmented URL when
data is sent as query parameters. -/
def describedSettings (qs : QueryString) (src : Obj) : Except JsError Obj :=
  match (mergedOptions src).get "type" with
  | .str t =>
    let settings := (mergedOptions src).set "type" (.str (toUpperCase t))
    let data := settings.get "data"
    if truthy data && !isEmpty data && !_useRequestBodyForMethod (.str (toUpperCase t)) then
      match extendURL qs (settings.get "url") data with
      | .ok url => .ok (settings.set "url" (.str url))
      | .error e => .error e
    else .ok settings
  | _ => .error .typeError

/-- Settings whose headers are the given headers, or an empty object, with
`Content-Length: 0` added. -/
def withForcedContentLength (settings : Obj) : Obj :=
  settings.set "headers"
    (.obj (Obj.set
      (match settings.get "headers" with
        | .obj fields => fields
        | _ => [])
      "Content-Length" (.num 0)))

/-- The receiver of a settlement, if the deferred is settled. -/
def Settlement.receiver? : Settlement → Option Receiver
  | .pending => none
  | .resolved c _ => some c
  | .rejected c _ => some c

/-- The receivers with which callbacks were invoked, in order. -/
def invokedReceivers (ev : List Event) : List Receiver :=
  ev.filterMap (fun e =>
    match e with
    | .invoke _ this _ => some this
    | _ => none)

/-- The instance left by the completion handler. -/
def completed (cfg : Config) (self : Request) (err : JsVal) (response : Option SAResponse) :
    Request :=
  match _onSARequestEnd cfg self err response with
  | .ok (self', _) => self'
  | .error _ => self

/-- The headers of the settings object of a receiver. -/
def Receiver.headers : Receiver → JsVal
  | .settings s => s.get "headers"
  | .value _ => .undefined

/-- The test options with an empty data object. -/
def emptyDataOptions : Obj :=
  [("dataType", .str "json"), ("url", .str "my/url"), ("type", .str "get"), ("data", .obj [])]

/-- The test options with data `foo: 'bar'`. -/
def fooBarOptions : Obj :=
  [("dataType", .str "json"), ("url", .str "my/url"), ("type", .str "get"),
    ("data", .obj [("foo", .str "bar")])]

/-- The test options with data `foo: 'bar'`, the given body method and
contentType `application/json`. -/
def fooBarBodyOptions (method : String) : Obj :=
  [("dataType", .str "json"), ("url", .str "my/url"), ("type", .str method),
    ("data", .obj [("foo", .str "bar")]), ("contentType", .str "application/json")]

/-- The test options with a callback under `success` and another under its
alias `done`. -/
def aliasOptions : Obj :=
  [("dataType", .str "json"), ("url", .str "my/url"), ("type", .str "get"),
    ("success", .fn 1), ("done", .fn 2)]

/-- The callbacks subscribed at the `done` point of a deferred, in order. -/
def Deferred.doneCallbacks (d : Deferred) : List JsVal :=
  d.subscriptions.filterMap (fun s =>
    match s.1 with
    | .done => some s.2
    | _ => none)

/-- The subscriptions the native request received through `on`, in order: the
event name and the handler. -/
def SARequest.onCalls (r : SARequest) : List (String × BoundFn) :=
  r.calls.filterMap (fun c =>
    match c with
    | .on event handler => some (event, handler)
    | _ => none)

/-- The process-wide state after a sequence of calls of
`requ.setSAEventListener(event, callback)`. -/
def registerAll (cfg : Config) (registrations : List (String × JsVal)) : Config :=
  registrations.foldl (fun c r => setSAEventListener c r.1 r.2) cfg

/-- The environment of the test of the event listeners: `callbackA` registered
for 'request' and `callbackB` for 'end'. -/
def listenerConfig : Config :=
  registerAll directConfig [("request", .fn 1), ("end", .fn 2)]

/-- An exception that leaves the completion handler: a TypeError of the language
(a read on a missing object, the call of a value that is not a function) or
whatever the callback threw. -/
inductive Uncaught where
  | typeError
  | thrownBy (callback : JsVal)

/-- The outcome of a call of the completion handler when callbacks may throw:
the instance afterwards, the events up to the return or the exception, and the
exception that left the handler, if one did. -/
structure Completion where
  self : Request
  events : List Event
  uncaught : Option Uncaught

/-- Whether the call of a value as a callback throws. The behaviour of the
functions is given by `throws`, which tells of each function whether it throws
when called; a value that is not a function cannot be called. -/
def callThrows (throws : Nat → Bool) : JsVal → Bool
  | .fn id => throws id
  | _ => true

/-- Modelled from the spec: the callbacks of a settlement run in subscription
order, each with the context as receiver and the args. They run inside the call
of `resolveWith` or `rejectWith`: an exception thrown by a callback, or by the
call of a value that is not a function, ends the run and leaves that call. -/
def runCallbacks (throws : Nat → Bool) (context : Receiver) (args : List Arg) :
    List JsVal → List Event × Option Uncaught
  | [] => ([], none)
  | cb :: rest =>
    match cb with
    | .fn id =>
      if throws id then ([.invoke cb context args], some (.thrownBy cb))
      else
        ((Event.invoke cb context args) :: (runCallbacks throws context args rest).1,
          (runCallbacks throws context args rest).2)
    | _ => ([], some .typeError)

/-- The method `dfd.resolveWith(context, args)` with callbacks that may throw:
the deferred is settled, then the callbacks run. -/
def Deferred.resolveWithThrowing (throws : Nat → Bool) (d : Deferred) (context : Receiver)
    (args : List Arg) : Deferred × List Event × Option Uncaught :=
  match d.state with
  | .pending =>
    ({ d with state := .resolved context args },
      (runCallbacks throws context args d.onResolve).1,
      (runCallbacks throws context args d.onResolve).2)
  | _ => (d, [], none)

/-- The method `dfd.rejectWith(context, args)` with callbacks that may throw. -/
def Deferred.rejectWithThrowing (throws : Nat → Bool) (d : Deferred) (context : Receiver)
    (args : List Arg) : Deferred × List Event × Option Uncaught :=
  match d.state with
  | .pending =>
    ({ d with state := .rejected context args },
      (runCallbacks throws context args d.onReject).1,
      (runCallbacks throws context args d.onReject).2)
  | _ => (d, [], none)

/-- The end of each path of `_onSARequestEnd`: the settlement, then
`self._requXhr = null`. The assignment is not reached when the settlement throws;
the slot then still refers to the handle. -/
def thenClear (self : Request) (requXhr : Handle) (ev0 : List Event)
    (settled : Deferred × List Event × Option Uncaught) : Completion :=
  match settled.2.2 with
  | none => ⟨{ self with _deferred := some settled.1, _requXhr := none }, ev0 ++ settled.2.1, none⟩
  | some e =>
    ⟨{ self with _deferred := some settled.1, _requXhr := some requXhr }, ev0 ++ settled.2.1,
      some e⟩

/-- The method `_onSARequestEnd(err, response)` with callbacks that may throw.
An exception leaves the handler at the statement that raised it, with the
assignments made so far: the after-request callback, the writes to a missing
handle, the calls on a missing deferred, the callbacks of the settlement and the
read of the body of a missing response. -/
def _onSARequestEndThrowing (throws : Nat → Bool) (cfg : Config) (self : Request) (err : JsVal)
    (response : Option SAResponse) : Completion :=
  let ev0 := _invokeAfterSARequestCallback cfg err response
  if isFunction cfg._onAfterSARequest && callThrows throws cfg._onAfterSARequest then
    ⟨self, ev0, some (.thrownBy cfg._onAfterSARequest)⟩
  else
    let context := self.receiver
    let xhr : Option Obj := response.bind (fun r => r.xhr)
    match self._requXhr with
    | none => ⟨self, ev0, some .typeError⟩
    | some requXhr =>
      let requXhr : Handle :=
        match xhr, response.bind (fun r => r.res) with
        | none, some res =>
          { requXhr with props := requXhr.props.extend (_getXhrPropertiesFromRes res) }
        | some x, _ => { requXhr with props := requXhr.props.extend (_getXhrPropertiesFromXhr x) }
        | none, none => requXhr
      let requXhr := { requXhr with readyState := 4, superagentResponse := some response }
      if truthy err then
        let requXhr := { requXhr with superagentError := some err }
        match self._deferred with
        | some dfd =>
          thenClear self requXhr ev0
            (dfd.rejectWithThrowing throws context
              [.handle requXhr, .val (.str "error"), .val err])
        | none => ⟨{ self with _requXhr := some requXhr }, ev0, some .typeError⟩
      else if _resStatusIsError (requXhr.props.get "statusCode") then
        match self._deferred with
        | some dfd =>
          thenClear self requXhr ev0
            (dfd.rejectWithThrowing throws context [.handle requXhr, .val (.str "error")])
        | none => ⟨{ self with _requXhr := some requXhr }, ev0, some .typeError⟩
      else
        match self._deferred, response with
        | some dfd, some r =>
          thenClear self requXhr ev0
            (dfd.resolveWithThrowing throws context
              [.val r.body, .val (.str "success"), .handle requXhr])
        | _, _ => ⟨{ self with _requXhr := some requXhr }, ev0, some .typeError⟩

/-- The test options with a callback under `success`. -/
def successOptions : Obj :=
  [("dataType", .str "json"), ("url", .str "my/url"), ("type", .str "get"),
    ("success", .fn 7)]

/-- The test options with a string under `success`. -/
def stringSuccessOptions : Obj :=
  [("dataType", .str "json"), ("url", .str "my/url"), ("type", .str "get"),
    ("success", .str "notfn")]

/-- The message of the refusal of a dispatch on a busy instance. -/
def busyMessage : String := "Request on requ.Request instance already in progress"

/-! ## Objects -/

theorem Obj.foldl_get (o : Obj) (k : String) (acc : JsVal) :
    o.foldl (fun acc p => if p.1 == k then p.2 else acc) acc =
      if Obj.has o k then Obj.get o k else acc := by
  induction o generalizing acc with
  | nil => simp [Obj.has]
  | cons p o ih =>
    have e1 := ih (if p.1 == k then p.2 else acc)
    have e2 := ih (if p.1 == k then p.2 else JsVal.undefined)
    simp only [Obj.has, Obj.get, List.foldl_cons, List.any_cons] at e1 e2 ⊢
    rw [e1, e2]
    by_cases h1 : (p.1 == k) = true <;> by_cases h2 : (o.any fun p => p.1 == k) = true <;>
      simp [h1, h2]

theorem Obj.get_cons (p : String × JsVal) (o : Obj) (k : String) :
    Obj.get (p :: o) k = if Obj.has o k then Obj.get o k else if p.1 == k then p.2 else .undefined := by
  simp only [Obj.get, List.foldl_cons]
  rw [Obj.foldl_get]
  simp [Obj.get]

theorem Obj.has_cons (p : String × JsVal) (o : Obj) (k : String) :
    Obj.has (p :: o) k = (p.1 == k || Obj.has o k) := by
  simp [Obj.has]

theorem Obj.get_of_not_has (o : Obj) (k : String) (h : Obj.has o k = false) :
    Obj.get o k = .undefined := by
  induction o with
  | nil => rfl
  | cons p o ih =>
    rw [Obj.has_cons] at h
    simp only [Bool.or_eq_false_iff] at h
    rw [Obj.get_cons, h.2, h.1]
    simp

theorem Obj.has_append (a b : Obj) (k : String) :
    Obj.has (a ++ b) k = (Obj.has a k || Obj.has b k) := by
  simp [Obj.has]

theorem Obj.get_append (a b : Obj) (k : String) :
    Obj.get (a ++ b) k = if Obj.has b k then Obj.get b k else Obj.get a k := by
  simp only [Obj.get, List.foldl_append]
  rw [Obj.foldl_get]
  simp [Obj.get]

theorem Obj.has_map_set (o : Obj) (k k' : String) (v : JsVal) :
    Obj.has (o.map (fun p => if p.1 == k then (k, v) else p)) k' = Obj.has o k' := by
  induction o with
  | nil => rfl
  | cons p o ih =>
    rw [List.map_cons, Obj.has_cons, Obj.has_cons, ih]
    by_cases h : (p.1 == k) = true
    · have hk : p.1 = k := by simpa using h
      simp [h, hk]
    · simp [h]

theorem Obj.get_map_set (o : Obj) (k k' : String) (v : JsVal) :
    Obj.get (o.map (fun p => if p.1 == k then (k, v) else p)) k' =
      if k == k' then (if Obj.has o k then v else .undefined) else Obj.get o k' := by
  induction o with
  | nil => simp [Obj.get, Obj.has]
  | cons p o ih =>
    rw [List.map_cons, Obj.get_cons, Obj.has_map_set, ih, Obj.get_cons, Obj.has_cons]
    by_cases hkk : (k == k') = true
    · have e : k = k' := by simpa using hkk
      subst e
      by_cases h1 : (p.1 == k) = true <;> by_cases h2 : Obj.has o k = true <;> simp [h1, h2]
    · have e : ¬ k = k' := by simpa using hkk
      by_cases h1 : (p.1 == k) = true
      · have e1 : p.1 = k := by simpa using h1
        simp [hkk, h1, e1, e]
      · simp [hkk, h1]

theorem Obj.has_set (o : Obj) (k k' : String) (v : JsVal) :
    Obj.has (Obj.set o k v) k' = (k == k' || Obj.has o k') := by
  unfold Obj.set
  by_cases h : Obj.has o k = true
  · rw [if_pos h, Obj.has_map_set]
    by_cases hkk : (k == k') = true
    · have e : k = k' := by simpa using hkk
      subst e
      simp [h]
    · simp [hkk]
  · rw [if_neg h, Obj.has_append]
    simp [Obj.has, Bool.or_comm]

theorem Obj.get_set (o : Obj) (k k' : String) (v : JsVal) :
    Obj.get (Obj.set o k v) k' = if k == k' then v else Obj.get o k' := by
  unfold Obj.set
  by_cases h : Obj.has o k = true
  · rw [if_pos h, Obj.get_map_set]
    simp [h]
  · rw [if_neg h, Obj.get_append]
    by_cases hkk : (k == k') = true
    · have e : k = k' := by simpa using hkk
      simp [Obj.has, Obj.get, e]
    · have e : ¬ k = k' := by simpa using hkk
      simp [Obj.has, Obj.get, e]

theorem Obj.has_extend (t s : Obj) (k : String) :
    Obj.has (Obj.extend t s) k = (Obj.has t k || Obj.has s k) := by
  unfold Obj.extend
  induction s generalizing t with
  | nil => simp [Obj.has]
  | cons p s ih =>
    rw [List.foldl_cons, ih, Obj.has_set, Obj.has_cons]
    cases (p.1 == k) <;> cases Obj.has t k <;> simp

theorem Obj.get_extend (t s : Obj) (k : String) :
    Obj.get (Obj.extend t s) k = if Obj.has s k then Obj.get s k else Obj.get t k := by
  unfold Obj.extend
  induction s generalizing t with
  | nil => simp [Obj.has]
  | cons p s ih =>
    rw [List.foldl_cons, ih, Obj.get_set, Obj.get_cons, Obj.has_cons]
    by_cases h1 : (p.1 == k) = true <;> by_cases h2 : Obj.has s k = true <;> simp [h1, h2]

theorem Obj.keys_set (o : Obj) (k : String) (v : JsVal) :
    Obj.keys (Obj.set o k v) = if Obj.has o k then Obj.keys o else Obj.keys o ++ [k] := by
  unfold Obj.set Obj.keys
  by_cases h : Obj.has o k = true
  · rw [if_pos h, if_pos h, List.map_map]
    apply List.map_congr_left
    intro p _
    by_cases hp : (p.1 == k) = true
    · have e : p.1 = k := by simpa using hp
      simp [hp, e]
    · have e : ¬ p.1 = k := by simpa using hp
      simp [e]
  · rw [if_neg h, if_neg h]
    simp

theorem Obj.mem_keys_iff (o : Obj) (k : String) : k ∈ Obj.keys o ↔ Obj.has o k = true := by
  simp [Obj.keys, Obj.has]

theorem Obj.keys_set_nodup (o : Obj) (k : String) (v : JsVal) (h : (Obj.keys o).Nodup) :
    (Obj.keys (Obj.set o k v)).Nodup := by
  rw [Obj.keys_set]
  by_cases hk : Obj.has o k = true
  · rw [if_pos hk]; exact h
  · rw [if_neg hk]
    have : k ∉ Obj.keys o := by rw [Obj.mem_keys_iff]; exact hk
    exact List.Nodup.append h (List.nodup_singleton k) (by simpa using this)

theorem Obj.keys_extend_nodup (t s : Obj) (h : (Obj.keys t).Nodup) :
    (Obj.keys (Obj.extend t s)).Nodup := by
  unfold Obj.extend
  induction s generalizing t with
  | nil => exact h
  | cons p s ih =>
    rw [List.foldl_cons]
    exact ih _ (Obj.keys_set_nodup t p.1 p.2 h)

/-! ## Status classification -/

theorem leadingDigit_lt (n : Nat) : leadingDigit n < 10 := by
  induction n using Nat.strong_induction_on with
  | _ n ih =>
    rw [leadingDigit]
    split
    · assumption
    · exact ih _ (by omega)

theorem toDigitsCore_head (fuel : Nat) : ∀ (n : Nat) (ds : List Char), n < fuel →
    (Nat.toDigitsCore 10 fuel n ds).head? = some (Nat.digitChar (leadingDigit n)) := by
  induction fuel with
  | zero => intro n ds h; omega
  | succ f ih =>
    intro n ds h
    rw [leadingDigit]
    simp only [Nat.toDigitsCore]
    by_cases h0 : n / 10 = 0
    · have hn : n < 10 := by omega
      simp [h0, hn, Nat.mod_eq_of_lt hn]
    · have hn : ¬ n < 10 := by omega
      simp only [h0, hn, if_false, dite_false]
      exact ih _ _ (by omega)

theorem charAt0_numToString (n : Nat) :
    charAt0 (numToString n) = [Nat.digitChar (leadingDigit n)] := by
  have h := toDigitsCore_head (n + 1) n [] (by omega)
  unfold charAt0 numToString Nat.toDigits
  cases hl : Nat.toDigitsCore 10 (n + 1) n [] with
  | nil => simp [hl] at h
  | cons c cs => simp [hl] at h; simp [h]

theorem jsNumberOfChar_digitChar (d : Nat) (h : d < 10) :
    jsNumberOfChar [Nat.digitChar d] = some d := by
  interval_cases d <;> rfl

theorem resStatusIsError_num (n : Nat) :
    _resStatusIsError (.num n) = (leadingDigit n != 2 && leadingDigit n != 3) := by
  simp only [_resStatusIsError, jsString, charAt0_numToString,
    jsNumberOfChar_digitChar _ (leadingDigit_lt n)]
  rw [Bool.eq_iff_iff]
  simp

theorem getXhrPropertiesFromRes_status (res : Res) (k : String)
    (hk : k = "status" ∨ k = "statusCode") :
    Obj.has (_getXhrPropertiesFromRes res) k = true ∧
      Obj.get (_getXhrPropertiesFromRes res) k = res.statusCode := by
  unfold _getXhrPropertiesFromRes
  rcases hk with rfl | rfl <;>
  · simp only []
    split
    · split
      · split
        · exact ⟨rfl, rfl⟩
        · split
          · exact ⟨rfl, rfl⟩
          · exact ⟨rfl, rfl⟩
      · exact ⟨rfl, rfl⟩
    · exact ⟨rfl, rfl⟩

/-! ## Completion handling -/

/-- C1: when the completion handler of an outstanding direct dispatch receives a
falsy error and a plain server-side response (no `xhr`, `res` present) whose status
code has leading decimal digit 2 or 3, the deferred is resolved, with the
dispatch-time context as receiver and exactly the arguments (response.body,
'success', handle); the handle then has readyState 4 and its status is the status
code, and the callbacks that run are those subscribed for resolution. -/
theorem plain_success_resolves (cfg : Config) (self : Request) (requXhr : Handle) (dfd : Deferred)
    (err : JsVal) (response : SAResponse) (res : Res) (n : Nat)
    (hx : self._requXhr = some requXhr) (hd : self._deferred = some dfd)
    (hp : dfd.state = .pending) (herr : truthy err = false)
    (hxhr : response.xhr = none) (hres : response.res = some res)
    (hcode : res.statusCode = .num n) (hlead : leadingDigit n = 2 ∨ leadingDigit n = 3) :
    ∃ handle : Handle,
      _onSARequestEnd cfg self err (some response) =
        .ok ({ self with
                _deferred := some { dfd with
                  state := .resolved self.receiver
                    [.val response.body, .val (.str "success"), .handle handle] },
                _requXhr := none },
              _invokeAfterSARequestCallback cfg err (some response) ++
                dfd.onResolve.map (fun cb => Event.invoke cb self.receiver
                  [.val response.body, .val (.str "success"), .handle handle])) ∧
      handle.readyState = 4 ∧ handle.props.get "status" = .num n := by
  have hs := getXhrPropertiesFromRes_status res "status" (Or.inl rfl)
  have hc := getXhrPropertiesFromRes_status res "statusCode" (Or.inr rfl)
  have hne : _resStatusIsError (.num n) = false := by
    rw [resStatusIsError_num]
    rcases hlead with h | h <;> simp [h]
  refine ⟨{ requXhr with
      props := requXhr.props.extend (_getXhrPropertiesFromRes res),
      readyState := 4, superagentResponse := some (some response) }, ?_, rfl, ?_⟩
  · simp [_onSARequestEnd, hx, hd, hxhr, hres, herr, Obj.get_extend, hc.1, hc.2, hcode, hne,
      Deferred.resolveWith, hp]
  · simp [Obj.get_extend, hs.1, hs.2, hcode]

/-- C1, the example of the specification: after `requ` of the test options on a
server, the completion `(null, body foo 1, res with statusCode 200)` resolves
with (body, 'success', handle) and the handle has status 200. -/
theorem plain_success_resolves_witness :
    leadingDigit 200 = 2 ∧
    ∃ handle : Handle,
      _onSARequestEnd serverConfig (dispatched serverConfig plainQs (.obj testOptions)) .null
          (some (plainResponse fakeResponseBody 200 "\x7b\"foo\":1\x7d")) =
        .ok ({ dispatched serverConfig plainQs (.obj testOptions) with
                _deferred := some { Deferred.fresh with
                  state := .resolved (dispatched serverConfig plainQs (.obj testOptions)).receiver
                    [.val fakeResponseBody, .val (.str "success"), .handle handle] },
                _requXhr := none },
              _invokeAfterSARequestCallback serverConfig .null
                  (some (plainResponse fakeResponseBody 200 "\x7b\"foo\":1\x7d")) ++
                Deferred.fresh.onResolve.map (fun cb => Event.invoke cb
                  (dispatched serverConfig plainQs (.obj testOptions)).receiver
                  [.val fakeResponseBody, .val (.str "success"), .handle handle])) ∧
      handle.readyState = 4 ∧ handle.props.get "status" = .num 200 :=
  ⟨by simp [leadingDigit],
    plain_success_resolves serverConfig (dispatched serverConfig plainQs (.obj testOptions))
      Handle.dispatched Deferred.fresh .null
      (plainResponse fakeResponseBody 200 "\x7b\"foo\":1\x7d")
      ⟨.num 200, .str "\x7b\"foo\":1\x7d", .undefined, none⟩ 200 rfl rfl rfl rfl rfl rfl rfl
      (Or.inl (by simp [leadingDigit]))⟩

/-- C2: when the completion handler of an outstanding direct dispatch receives a
truthy error, whatever the response is, the deferred is rejected with exactly the
three arguments (handle, 'error', error) and the dispatch-time context as receiver;
it is not resolved, only the callbacks subscribed for rejection run, and the handle
carries that error under `superagentError`. -/
theorem transport_error_rejects (cfg : Config) (self : Request) (requXhr : Handle)
    (dfd : Deferred) (err : JsVal) (response : Option SAResponse)
    (hx : self._requXhr = some requXhr) (hd : self._deferred = some dfd)
    (hp : dfd.state = .pending) (herr : truthy err = true) :
    ∃ handle : Handle,
      _onSARequestEnd cfg self err response =
        .ok ({ self with
                _deferred := some { dfd with
                  state := .rejected self.receiver
                    [.handle handle, .val (.str "error"), .val err] },
                _requXhr := none },
              _invokeAfterSARequestCallback cfg err response ++
                dfd.onReject.map (fun cb => Event.invoke cb self.receiver
                  [.handle handle, .val (.str "error"), .val err])) ∧
      handle.superagentError = some err ∧ handle.readyState = 4 ∧
      handle.superagentResponse = some response := by
  unfold _onSARequestEnd
  simp only [hx, hd, herr, if_true, Deferred.rejectWith, hp]
  exact ⟨_, rfl, rfl, rfl, rfl⟩

/-- C2, an example: a transport error delivered together with a response of
status 200 rejects with (handle, 'error', error). -/
theorem transport_error_rejects_witness :
    truthy (.str "ECONNRESET") = true ∧
    ∃ handle : Handle,
      _onSARequestEnd serverConfig (dispatched serverConfig plainQs (.obj testOptions))
          (.str "ECONNRESET") (some (plainResponse fakeResponseBody 200 "ok")) =
        .ok ({ dispatched serverConfig plainQs (.obj testOptions) with
                _deferred := some { Deferred.fresh with
                  state := .rejected (dispatched serverConfig plainQs (.obj testOptions)).receiver
                    [.handle handle, .val (.str "error"), .val (.str "ECONNRESET")] },
                _requXhr := none },
              _invokeAfterSARequestCallback serverConfig (.str "ECONNRESET")
                  (some (plainResponse fakeResponseBody 200 "ok")) ++
                Deferred.fresh.onReject.map (fun cb => Event.invoke cb
                  (dispatched serverConfig plainQs (.obj testOptions)).receiver
                  [.handle handle, .val (.str "error"), .val (.str "ECONNRESET")])) ∧
      handle.superagentError = some (.str "ECONNRESET") ∧ handle.readyState = 4 ∧
      handle.superagentResponse = some (some (plainResponse fakeResponseBody 200 "ok")) :=
  ⟨rfl,
    transport_error_rejects serverConfig (dispatched serverConfig plainQs (.obj testOptions))
      Handle.dispatched Deferred.fresh (.str "ECONNRESET")
      (some (plainResponse fakeResponseBody 200 "ok")) rfl rfl rfl rfl⟩

/-- C3: when the completion handler of an outstanding direct dispatch receives a
falsy error and a plain server-side response whose status code has a leading
decimal digit other than 2 and 3, the deferred is rejected with exactly the two
arguments (handle, 'error'), without an error object; it is not resolved, and the
status of the handle is the status code. -/
theorem plain_failure_rejects (cfg : Config) (self : Request) (requXhr : Handle) (dfd : Deferred)
    (err : JsVal) (response : SAResponse) (res : Res) (n : Nat)
    (hx : self._requXhr = some requXhr) (hd : self._deferred = some dfd)
    (hp : dfd.state = .pending) (herr : truthy err = false)
    (hxhr : response.xhr = none) (hres : response.res = some res)
    (hcode : res.statusCode = .num n) (hlead : leadingDigit n ≠ 2 ∧ leadingDigit n ≠ 3) :
    ∃ (handle : Handle) (args : List Arg),
      args = [.handle handle, .val (.str "error")] ∧ args.length = 2 ∧
      _onSARequestEnd cfg self err (some response) =
        .ok ({ self with
                _deferred := some { dfd with state := .rejected self.receiver args },
                _requXhr := none },
              _invokeAfterSARequestCallback cfg err (some response) ++
                dfd.onReject.map (fun cb => Event.invoke cb self.receiver args)) ∧
      handle.readyState = 4 ∧ handle.props.get "status" = .num n := by
  have hs := getXhrPropertiesFromRes_status res "status" (Or.inl rfl)
  have hc := getXhrPropertiesFromRes_status res "statusCode" (Or.inr rfl)
  have hne : _resStatusIsError (.num n) = true := by
    rw [resStatusIsError_num]
    simp [hlead.1, hlead.2]
  refine ⟨{ requXhr with
      props := requXhr.props.extend (_getXhrPropertiesFromRes res),
      readyState := 4, superagentResponse := some (some response) }, _, rfl, rfl, ?_, rfl, ?_⟩
  · simp [_onSARequestEnd, hx, hd, hxhr, hres, herr, Obj.get_extend, hc.1, hc.2, hcode, hne,
      Deferred.rejectWith, hp]
  · simp [Obj.get_extend, hs.1, hs.2, hcode]

/-- C3, the example of the specification: the completion `(null, res with
statusCode 500)` rejects with (handle, 'error') and the handle has status 500. -/
theorem plain_failure_rejects_witness :
    (leadingDigit 500 ≠ 2 ∧ leadingDigit 500 ≠ 3) ∧
    ∃ (handle : Handle) (args : List Arg),
      args = [.handle handle, .val (.str "error")] ∧ args.length = 2 ∧
      _onSARequestEnd serverConfig (dispatched serverConfig plainQs (.obj testOptions)) .null
          (some (plainResponse .undefined 500 "...")) =
        .ok ({ dispatched serverConfig plainQs (.obj testOptions) with
                _deferred := some { Deferred.fresh with
                  state := .rejected
                    (dispatched serverConfig plainQs (.obj testOptions)).receiver args },
                _requXhr := none },
              _invokeAfterSARequestCallback serverConfig .null
                  (some (plainResponse .undefined 500 "...")) ++
                Deferred.fresh.onReject.map (fun cb => Event.invoke cb
                  (dispatched serverConfig plainQs (.obj testOptions)).receiver args)) ∧
      handle.readyState = 4 ∧ handle.props.get "status" = .num 500 :=
  ⟨by simp [leadingDigit],
    plain_failure_rejects serverConfig (dispatched serverConfig plainQs (.obj testOptions))
      Handle.dispatched Deferred.fresh .null (plainResponse .undefined 500 "...")
      ⟨.num 500, .str "...", .undefined, none⟩ 500 rfl rfl rfl rfl rfl rfl rfl
      (by simp [leadingDigit])⟩

/-- Status codes with three digits: the leading digit is the hundreds digit, so
every code in 100..199 and 400..599 has a leading digit other than 2 and 3. -/
theorem leadingDigit_three_digits (n : Nat) (h1 : 100 ≤ n) (h2 : n < 1000) :
    leadingDigit n = n / 100 := by
  have a : ¬ n < 10 := by omega
  have b : ¬ n / 10 < 10 := by omega
  have c : n / 10 / 10 < 10 := by omega
  rw [leadingDigit, if_neg a, leadingDigit, if_neg b, leadingDigit, if_pos c]
  omega

/-- C4, the code at a browser XMLHttpRequest: the completion `(null, response)`
whose `xhr` has `status: 200` and, like every XMLHttpRequest, no `statusCode`, is
rejected with (handle, 'error') although the status of the handle is 200; the
outcome is read from `statusCode`, not from `status`. -/
theorem native_xhr_status_200_rejects :
    ∃ handle : Handle,
      _onSARequestEnd directConfig (dispatched directConfig plainQs (.obj testOptions)) .null
          (some nativeXhrResponse) =
        .ok ({ dispatched directConfig plainQs (.obj testOptions) with
                _deferred := some { Deferred.fresh with
                  state := .rejected
                    (dispatched directConfig plainQs (.obj testOptions)).receiver
                    [.handle handle, .val (.str "error")] },
                _requXhr := none }, []) ∧
      handle.props.get "status" = .num 200 ∧ leadingDigit 200 = 2 :=
  ⟨_, rfl, rfl, by simp [leadingDigit]⟩

/-- The fixture of the test suite, whose XHR-like object carries `statusCode:
200` next to `status: 200`, resolves with (fakeResponseBody, 'success', handle). -/
theorem fixture_xhr_resolves :
    ∃ handle : Handle,
      _onSARequestEnd directConfig (dispatched directConfig plainQs (.obj testOptions)) .null
          (some fakeResponseObj) =
        .ok ({ dispatched directConfig plainQs (.obj testOptions) with
                _deferred := some { Deferred.fresh with
                  state := .resolved
                    (dispatched directConfig plainQs (.obj testOptions)).receiver
                    [.val fakeResponseBody, .val (.str "success"), .handle handle] },
                _requXhr := none }, []) ∧
      handle.props.get "status" = .num 200 :=
  ⟨_, rfl, rfl⟩

/-! ## The stages of a dispatch -/

theorem toUpper_toUpper (c : Char) : c.toUpper.toUpper = c.toUpper := by
  unfold Char.toUpper
  by_cases h : c.toNat ≥ 97 ∧ c.toNat ≤ 122
  · simp only [h, and_self, if_true]
    obtain ⟨h1, h2⟩ := h
    generalize c.toNat = n at h1 h2
    interval_cases n <;> rfl
  · simp only [h, if_false]

theorem toUpperCase_idem (s : String) : toUpperCase (toUpperCase s) = toUpperCase s := by
  have e : Char.toUpper ∘ Char.toUpper = Char.toUpper := funext toUpper_toUpper
  simp [toUpperCase, e]

theorem extend_nil_defaults : Obj.extend [] _defaultSettings = _defaultSettings := by rfl

theorem mergedOptions_get (src : Obj) (k : String) :
    (mergedOptions src).get k = if src.has k then src.get k else Obj.get _defaultSettings k := by
  unfold mergedOptions
  rw [Obj.get_extend, extend_nil_defaults]

theorem formatSettings_obj (src : Obj) (t : String) (h : (mergedOptions src).get "type" = .str t) :
    _formatSettings (.obj src) = .ok ((mergedOptions src).set "type" (.str (toUpperCase t))) := by
  unfold mergedOptions at h ⊢
  simp only [_formatSettings, extendSource, h]

theorem formatSettings_inv (o : JsVal) (settings : Obj) (h : _formatSettings o = .ok settings) :
    ∃ src t, extendSource o = .ok src ∧ (mergedOptions src).get "type" = .str t ∧
      settings = (mergedOptions src).set "type" (.str (toUpperCase t)) := by
  unfold _formatSettings at h
  cases hs : extendSource o with
  | error e => simp [hs] at h
  | ok src =>
    simp only [hs] at h
    split at h
    · rename_i t ht
      exact ⟨src, t, rfl, ht, by simpa using h.symm⟩
    · simp at h

theorem bind_of_isFunction (func : JsVal) (context : ThisVal) (hf : isFunction func = true) :
    _bind func context = .ok ⟨func, context⟩ := by
  cases func <;> first | rfl | simp [isFunction] at hf

theorem bind_of_not_isFunction (func : JsVal) (context : ThisVal)
    (hf : ¬ isFunction func = true) : _bind func context = .error .typeError := by
  cases func <;> first | rfl | simp [isFunction] at hf

theorem bindEventListeners_aux (this : ThisVal) (listeners : Obj) :
    ∀ (request r1 : SARequest),
      _each listeners (fun this callback event request =>
        match _bind callback this with
        | .ok handler => Except.ok (SARequest.call request (.on event handler))
        | .error e => Except.error e) (some this) request = Except.ok r1 →
      r1 = { request with
          calls := request.calls ++ listeners.map (fun p => SACall.on p.1 ⟨p.2, this⟩) }
        ∧ listeners.all (fun p => isFunction p.2) = true := by
  induction listeners with
  | nil =>
    intro request r1 h
    simp only [_each, List.foldlM, pure, Except.pure, Except.ok.injEq] at h
    simp [← h]
  | cons p ps ih =>
    intro request r1 h
    simp only [_each, List.foldlM, bind, Except.bind, Option.getD_some] at h
    by_cases hf : isFunction p.2 = true
    · rw [bind_of_isFunction _ _ hf] at h
      obtain ⟨e, ha⟩ := ih _ _ h
      simp [e, ha, hf, SARequest.call]
    · rw [bind_of_not_isFunction _ _ hf] at h
      simp at h

theorem bindEventListeners_inv (cfg : Config) (this : ThisVal) (request r1 : SARequest)
    (h : _bindEventListeners cfg this request = .ok r1) :
    r1 = { request with
      calls := request.calls
        ++ cfg._saEventListeners.map (fun p => SACall.on p.1 ⟨p.2, this⟩) } :=
  (bindEventListeners_aux this cfg._saEventListeners request r1 h).1

theorem bindEventListeners_ok (this : ThisVal) (listeners : Obj)
    (hl : listeners.all (fun p => isFunction p.2) = true) :
    ∀ request : SARequest, ∃ r1,
      _each listeners (fun this callback event request =>
        match _bind callback this with
        | .ok handler => Except.ok (SARequest.call request (.on event handler))
        | .error e => Except.error e) (some this) request = Except.ok r1 := by
  induction listeners with
  | nil => intro request; exact ⟨request, rfl⟩
  | cons p ps ih =>
    intro request
    simp only [List.all_cons, Bool.and_eq_true] at hl
    simp only [_each, List.foldlM, bind, Except.bind, Option.getD_some]
    rw [bind_of_isFunction _ _ hl.1]
    exact ih hl.2 _

theorem sameTraffic_refl (r : SARequest) : r.sameTraffic r := ⟨rfl, rfl, rfl, rfl⟩

theorem sameTraffic_trans {a b c : SARequest} (h1 : a.sameTraffic b) (h2 : b.sameTraffic c) :
    a.sameTraffic c :=
  ⟨h2.1.trans h1.1, h2.2.1.trans h1.2.1, h2.2.2.1.trans h1.2.2.1, h2.2.2.2.trans h1.2.2.2⟩

theorem sameTraffic_append (r : SARequest) (cs : List SACall)
    (hs : ∀ c ∈ cs, (∀ d, c ≠ .send d) ∧ (∀ d, c ≠ .query d)) :
    r.sameTraffic { r with calls := r.calls ++ cs } := by
  refine ⟨rfl, rfl, ?_, ?_⟩
  · simp only [SARequest.sent, List.filterMap_append]
    rw [List.append_right_eq_self, List.filterMap_eq_nil_iff]
    intro c hc
    have := (hs c hc).1
    cases c <;> first | rfl | exact absurd rfl (this _)
  · simp only [SARequest.queried, List.filterMap_append]
    rw [List.append_right_eq_self, List.filterMap_eq_nil_iff]
    intro c hc
    have := (hs c hc).2
    cases c <;> first | rfl | exact absurd rfl (this _)

theorem sameTraffic_call (r : SARequest) (c : SACall)
    (hs : (∀ d, c ≠ .send d) ∧ (∀ d, c ≠ .query d)) : r.sameTraffic (r.call c) :=
  sameTraffic_append r [c] (by simpa using hs)

theorem bindEventListeners_sameTraffic (cfg : Config) (this : ThisVal) (request r1 : SARequest)
    (h : _bindEventListeners cfg this request = .ok r1) : request.sameTraffic r1 := by
  rw [bindEventListeners_inv cfg this request r1 h]
  apply sameTraffic_append
  intro c hc
  simp only [List.mem_map] at hc
  obtain ⟨p, _, rfl⟩ := hc
  simp

theorem setTypeHeaders_sameTraffic (contentType dataType : JsVal) (r : SARequest) :
    r.sameTraffic (setTypeHeaders contentType dataType r) := by
  unfold setTypeHeaders
  by_cases h1 : truthy contentType = true <;> by_cases h2 : truthy dataType = true <;>
    simp only [h1, h2, if_true, if_false]
  · exact sameTraffic_trans (sameTraffic_call _ _ (by simp)) (sameTraffic_call _ _ (by simp))
  · exact sameTraffic_call _ _ (by simp)
  · exact sameTraffic_call _ _ (by simp)
  · exact sameTraffic_refl _

theorem setHeaders_fold (fields : Obj) (r : SARequest) :
    fields.foldl (fun req p => SARequest.call req (.set p.1 p.2)) r =
      { r with calls := r.calls ++ fields.map (fun p => SACall.set p.1 p.2) } := by
  induction fields generalizing r with
  | nil => simp
  | cons p ps ih =>
    rw [List.foldl_cons, ih]
    simp [SARequest.call]

theorem setHeaders_sameTraffic (r r' : SARequest) (headers : JsVal)
    (h : _setHeaders r headers = .ok r') : r.sameTraffic r' := by
  unfold _setHeaders at h
  split at h
  · rw [setHeaders_fold] at h
    simp only [Except.ok.injEq] at h
    rw [← h]
    apply sameTraffic_append
    intro c hc
    simp only [List.mem_map] at hc
    obtain ⟨p, _, rfl⟩ := hc
    simp
  · simp only [Except.ok.injEq] at h
    rw [← h]
    exact sameTraffic_refl _
  · simp only [Except.ok.injEq] at h
    rw [← h]
    exact sameTraffic_refl _
  · simp at h

theorem applyHeaders_sameTraffic (settings : Obj) (r r' : SARequest)
    (h : applyHeaders settings r = .ok r') : r.sameTraffic r' := by
  unfold applyHeaders at h
  split at h
  · exact setHeaders_sameTraffic _ _ _ h
  · simp only [Except.ok.injEq] at h
    rw [← h]
    exact sameTraffic_refl _

theorem forceContentLength_get (method : String) (s s2 : Obj) (k : String)
    (h : forceContentLength method s = .ok s2) (hk : k ≠ "headers") : s2.get k = s.get k := by
  unfold forceContentLength at h
  split at h
  · split at h
    · simp only [Except.ok.injEq] at h
      rw [← h, Obj.get_set]
      have : ("headers" == k) = false := by simpa using fun e => hk e.symm
      simp [this]
    · simp at h
    · simp at h
  · simp only [Except.ok.injEq] at h
    rw [h]

theorem forceContentLength_other (method : String) (s s2 : Obj)
    (h : forceContentLength method s = .ok s2) (hm : method ≠ "DELETE") : s2 = s := by
  unfold forceContentLength at h
  simp only [hm, if_false, Except.ok.injEq] at h
  exact h.symm

/-- What a direct dispatch on an idle instance computes, stage by stage. -/
theorem sendUsingSuperAgent_inv (cfg : Config) (qs : QueryString) (self self' : Request)
    (options : JsVal) (h : Option Handle) (ev : List Event) (hidle : self._requXhr = none)
    (hok : sendUsingSuperAgent cfg qs self options = .ok (h, self', ev)) :
    ∃ (settings0 : Obj) (m : String) (request0 request1 : SARequest) (settings1 : Obj)
      (request2 : SARequest) (settings2 : Obj) (request3 : SARequest),
      _formatSettings (effectiveOptions cfg options) = .ok settings0 ∧
      settings0.get "type" = .str m ∧
      _makeSARequestInstance (methodsMap.lookup (toUpperCase m)) (settings0.get "url")
        = .ok request0 ∧
      _bindEventListeners cfg .adapter request0 = .ok request1 ∧
      attachData qs (toUpperCase m) settings0 request1 = .ok (settings1, request2) ∧
      forceContentLength (toUpperCase m) settings1 = .ok settings2 ∧
      applyHeaders settings2
        (setTypeHeaders (settings0.get "contentType") (settings0.get "dataType") request2)
        = .ok request3 ∧
      h = some Handle.dispatched ∧
      self' = ⟨.obj settings2, some (request3.call .endCall),
        some (_attachCallbacks Deferred.fresh settings2).1, some Handle.dispatched,
        some (contextOf settings0)⟩ ∧
      ev = (_invokeBeforeRequestCallback cfg options).2
        ++ dispatchAssertions settings0 (toUpperCase m)
        ++ (_attachCallbacks Deferred.fresh settings2).2 := by
  unfold sendUsingSuperAgent at hok
  simp only [hidle, Option.isSome_none, Bool.false_eq_true, if_false, bind, Except.bind, pure,
    Except.pure] at hok
  cases h0 : _formatSettings (_invokeBeforeRequestCallback cfg options).1 with
  | error e => simp [h0] at hok
  | ok settings0 =>
    simp only [h0] at hok
    split at hok
    · rename_i m hm
      cases h1 : _makeSARequestInstance (methodsMap.lookup (toUpperCase m))
          (settings0.get "url") with
      | error e => simp [h1] at hok
      | ok request0 =>
        simp only [h1] at hok
        cases h2 : _bindEventListeners cfg .adapter request0 with
        | error e => simp [h2] at hok
        | ok request1 =>
          simp only [h2] at hok
          cases h3 : attachData qs (toUpperCase m) settings0 request1 with
          | error e => simp [h3] at hok
          | ok sr =>
            obtain ⟨settings1, request2⟩ := sr
            simp only [h3] at hok
            cases h4 : forceContentLength (toUpperCase m) settings1 with
            | error e => simp [h4] at hok
            | ok settings2 =>
              simp only [h4] at hok
              cases h5 : applyHeaders settings2 (setTypeHeaders (settings0.get "contentType")
                  (settings0.get "dataType") request2) with
              | error e => simp [h5] at hok
              | ok request3 =>
                simp only [h5, Except.ok.injEq, Prod.mk.injEq] at hok
                obtain ⟨e1, e2, e3⟩ := hok
                exact ⟨settings0, m, request0, request1, settings1, request2, settings2,
                  request3, h0, hm, h1, h2, h3, h4, h5, e1.symm, e2.symm, by
                    rw [← e3, List.append_assoc]⟩
    · simp at hok

/-- A direct dispatch on an idle instance returns what its stages compute. -/
theorem sendUsingSuperAgent_of_stages (cfg : Config) (qs : QueryString) (self : Request)
    (options : JsVal) (hidle : self._requXhr = none)
    (settings0 : Obj) (m : String) (request0 request1 : SARequest) (settings1 : Obj)
    (request2 : SARequest) (settings2 : Obj) (request3 : SARequest)
    (h0 : _formatSettings (effectiveOptions cfg options) = .ok settings0)
    (hm : settings0.get "type" = .str m)
    (h1 : _makeSARequestInstance (methodsMap.lookup (toUpperCase m)) (settings0.get "url")
      = .ok request0)
    (h2 : _bindEventListeners cfg .adapter request0 = .ok request1)
    (h3 : attachData qs (toUpperCase m) settings0 request1 = .ok (settings1, request2))
    (h4 : forceContentLength (toUpperCase m) settings1 = .ok settings2)
    (h5 : applyHeaders settings2
      (setTypeHeaders (settings0.get "contentType") (settings0.get "dataType") request2)
      = .ok request3) :
    sendUsingSuperAgent cfg qs self options =
      .ok (some Handle.dispatched,
        ⟨.obj settings2, some (request3.call .endCall),
          some (_attachCallbacks Deferred.fresh settings2).1, some Handle.dispatched,
          some (contextOf settings0)⟩,
        (_invokeBeforeRequestCallback cfg options).2
          ++ dispatchAssertions settings0 (toUpperCase m)
          ++ (_attachCallbacks Deferred.fresh settings2).2) := by
  unfold effectiveOptions at h0
  unfold sendUsingSuperAgent
  simp only [hidle, Option.isSome_none, Bool.false_eq_true, if_false, bind, Except.bind, pure,
    Except.pure, h0, hm, h1, h2, h3, h4, h5, List.append_assoc]

theorem mergedOptions_get_other (src : Obj) (k : String)
    (hk : Obj.has _defaultSettings k = false) : (mergedOptions src).get k = Obj.get src k := by
  rw [mergedOptions_get]
  by_cases h : Obj.has src k = true
  · simp [h]
  · have h' : Obj.has src k = false := by simpa using h
    simp [h', Obj.get_of_not_has _ _ hk, Obj.get_of_not_has _ _ h']

theorem get_set_type (s : Obj) (v : JsVal) (k : String) (hk : k ≠ "type") :
    (s.set "type" v).get k = s.get k := by
  rw [Obj.get_set]
  have : ("type" == k) = false := by simpa using fun e => hk e.symm
  simp [this]

theorem attachData_ok (qs : QueryString) (method : String) (settings : Obj) (request : SARequest)
    (hurl : isString (settings.get "url") = true)
    (hdata : settings.get "data" = .undefined ∨ ∃ f, settings.get "data" = .obj f) :
    ∃ s1 r2, attachData qs method settings request = .ok (s1, r2) ∧
      ∀ k, k ≠ "url" → s1.get k = settings.get k := by
  unfold attachData
  rcases hdata with hd | ⟨f, hd⟩
  · simp [hd, truthy]
  · simp only [hd, truthy, Bool.true_and]
    by_cases he : isEmpty (.obj f) = true
    · simp [he]
    · simp only [he, Bool.not_false, if_true]
      by_cases hb : _useRequestBodyForMethod (.str method) = true
      · simp [hb]
      · simp only [hb, if_false]
        cases hu : settings.get "url" with
        | str u =>
          simp only [extendURL, extendSource]
          refine ⟨_, _, rfl, ?_⟩
          intro k hk
          rw [Obj.get_set]
          have : ("url" == k) = false := by simpa using fun e => hk e.symm
          simp [this]
        | _ => simp [hu, isString] at hurl

theorem forceContentLength_ok (method : String) (settings : Obj)
    (hh : settings.get "headers" = .undefined ∨ ∃ f, settings.get "headers" = .obj f) :
    ∃ s2, forceContentLength method settings = .ok s2 ∧
      (s2.get "headers" = .undefined ∨ ∃ f, s2.get "headers" = .obj f) := by
  unfold forceContentLength
  by_cases hm : method = "DELETE"
  · simp only [hm, if_true]
    rcases hh with hh | ⟨f, hh⟩
    · simp only [hh, jsOr, truthy, Bool.false_eq_true, if_false]
      exact ⟨_, rfl, Or.inr ⟨Obj.set [] "Content-Length" (.num 0), by
        rw [Obj.get_set]; simp⟩⟩
    · simp only [hh, jsOr, truthy, if_true]
      exact ⟨_, rfl, Or.inr ⟨Obj.set f "Content-Length" (.num 0), by
        rw [Obj.get_set]; simp⟩⟩
  · simp only [hm, if_false]
    exact ⟨_, rfl, hh⟩

theorem applyHeaders_ok (settings : Obj) (request : SARequest)
    (hh : settings.get "headers" = .undefined ∨ ∃ f, settings.get "headers" = .obj f) :
    ∃ r, applyHeaders settings request = .ok r := by
  unfold applyHeaders
  rcases hh with hh | ⟨f, hh⟩
  · simp [hh, truthy]
  · simp [hh, truthy, _setHeaders]

/-- A direct dispatch of well-typed options on an idle instance returns a handle. -/
theorem sendUsingSuperAgent_returns (cfg : Config) (qs : QueryString) (self : Request)
    (options : JsVal) (hidle : self._requXhr = none)
    (hwt : wellTyped cfg (effectiveOptions cfg options) = true) :
    ∃ self' ev, sendUsingSuperAgent cfg qs self options = .ok (some Handle.dispatched, self', ev) := by
  unfold wellTyped at hwt
  split at hwt
  · rename_i src ho
    simp only [Bool.and_eq_true] at hwt
    obtain ⟨⟨⟨⟨hty, hurl⟩, hdata⟩, hhdr⟩, hls⟩ := hwt
    split at hty
    · rename_i t ht
      have h0 := formatSettings_obj src t ht
      rw [← ho] at h0
      have hm : ((mergedOptions src).set "type" (.str (toUpperCase t))).get "type"
          = .str (toUpperCase t) := by rw [Obj.get_set]; simp
      have hurl0 : ((mergedOptions src).set "type" (.str (toUpperCase t))).get "url"
          = Obj.get src "url" := by
        rw [get_set_type _ _ _ (by decide), mergedOptions_get_other _ _ (by rfl)]
      have hdata0 : ((mergedOptions src).set "type" (.str (toUpperCase t))).get "data"
          = Obj.get src "data" := by
        rw [get_set_type _ _ _ (by decide), mergedOptions_get_other _ _ (by rfl)]
      have hhdr0 : ((mergedOptions src).set "type" (.str (toUpperCase t))).get "headers"
          = Obj.get src "headers" := by
        rw [get_set_type _ _ _ (by decide), mergedOptions_get_other _ _ (by rfl)]
      have hdata' : Obj.get src "data" = .undefined ∨ ∃ f, Obj.get src "data" = .obj f := by
        split at hdata
        · rename_i e; exact Or.inl e
        · rename_i f e; exact Or.inr ⟨f, e⟩
        · simp at hdata
      have hhdr' : Obj.get src "headers" = .undefined ∨ ∃ f, Obj.get src "headers" = .obj f := by
        split at hhdr
        · rename_i e; exact Or.inl e
        · rename_i f e; exact Or.inr ⟨f, e⟩
        · simp at hhdr
      obtain ⟨fn, hfn⟩ := Option.isSome_iff_exists.mp hty
      have h1 : _makeSARequestInstance (methodsMap.lookup (toUpperCase (toUpperCase t)))
          (((mergedOptions src).set "type" (.str (toUpperCase t))).get "url")
          = .ok ⟨fn, Obj.get src "url", []⟩ := by
        rw [toUpperCase_idem, hfn, hurl0]; rfl
      obtain ⟨r1, h2⟩ := bindEventListeners_ok .adapter cfg._saEventListeners hls
        ⟨fn, Obj.get src "url", []⟩
      obtain ⟨s1, r2, h3, hs1⟩ := attachData_ok qs (toUpperCase (toUpperCase t))
        ((mergedOptions src).set "type" (.str (toUpperCase t))) r1
        (by rw [hurl0]; exact hurl) (by rw [hdata0]; exact hdata')
      obtain ⟨s2, h4, hs2⟩ := forceContentLength_ok (toUpperCase (toUpperCase t)) s1
        (by rw [hs1 _ (by decide), hhdr0]; exact hhdr')
      obtain ⟨r3, h5⟩ := applyHeaders_ok s2
        (setTypeHeaders
          (((mergedOptions src).set "type" (.str (toUpperCase t))).get "contentType")
          (((mergedOptions src).set "type" (.str (toUpperCase t))).get "dataType") r2) hs2
      exact ⟨_, _, sendUsingSuperAgent_of_stages cfg qs self options hidle _ _ _ _ _ _ _ _
        h0 hm h1 h2 h3 h4 h5⟩
    · simp at hty
  · simp at hwt

/-! ## Dispatch -/

/-- C8: on an instance with an outstanding direct dispatch (its in-flight handle
is set), `sendUsingSuperAgent(options)` returns null for every options; its only
effect is the error it logs, so no native request is built and no before-request
callback is invoked; the instance (settings, context, native request, deferred,
in-flight handle) is unchanged, and the later completion of the first request
settles exactly as it would on the instance before the second call. -/
theorem busy_instance_refuses (cfg : Config) (qs : QueryString) (self : Request)
    (options : JsVal) (handle : Handle) (hbusy : self._requXhr = some handle) :
    sendUsingSuperAgent cfg qs self options =
        .ok (none, self,
          [.consoleError "Request on requ.Request instance already in progress"]) ∧
      ∀ (r : Option Handle × Request × List Event),
        sendUsingSuperAgent cfg qs self options = .ok r →
        r.1 = none ∧ r.2.1 = self ∧
          ∀ err response,
            _onSARequestEnd cfg r.2.1 err response = _onSARequestEnd cfg self err response := by
  have h : sendUsingSuperAgent cfg qs self options =
      .ok (none, self,
        [.consoleError "Request on requ.Request instance already in progress"]) := by
    unfold sendUsingSuperAgent
    simp [hbusy]
  refine ⟨h, ?_⟩
  intro r hr
  rw [h] at hr
  simp only [Except.ok.injEq] at hr
  subst hr
  exact ⟨rfl, rfl, fun _ _ => rfl⟩

/-- C8, an example: after `requ` of the test options, a second dispatch on the
same instance returns null and leaves the instance as it was. -/
theorem busy_instance_refuses_witness :
    (dispatched directConfig plainQs (.obj testOptions))._requXhr = some Handle.dispatched ∧
    (sendUsingSuperAgent directConfig plainQs (dispatched directConfig plainQs (.obj testOptions))
        (.obj postOptions) =
        .ok (none, dispatched directConfig plainQs (.obj testOptions),
          [.consoleError "Request on requ.Request instance already in progress"]) ∧
      ∀ (r : Option Handle × Request × List Event),
        sendUsingSuperAgent directConfig plainQs
            (dispatched directConfig plainQs (.obj testOptions)) (.obj postOptions) = .ok r →
        r.1 = none ∧ r.2.1 = dispatched directConfig plainQs (.obj testOptions) ∧
          ∀ err response,
            _onSARequestEnd directConfig r.2.1 err response =
              _onSARequestEnd directConfig (dispatched directConfig plainQs (.obj testOptions))
                err response) :=
  ⟨rfl, busy_instance_refuses directConfig plainQs
    (dispatched directConfig plainQs (.obj testOptions)) (.obj postOptions) Handle.dispatched rfl⟩

theorem ajaxCalls_append (a b : List Event) : ajaxCalls (a ++ b) = ajaxCalls a ++ ajaxCalls b := by
  simp [ajaxCalls, List.filterMap_append]

theorem ajaxCalls_testAllowedOptions (options : JsVal) :
    ajaxCalls (_testAllowedOptions options) = [] := by
  unfold _testAllowedOptions ajaxCalls
  split
  · rw [List.filterMap_eq_nil_iff]
    intro e he
    simp only [List.mem_map] at he
    obtain ⟨k, _, rfl⟩ := he
    rfl
  · rfl

theorem ajaxCalls_beforeRequest (cfg : Config) (options : JsVal) :
    ajaxCalls (_invokeBeforeRequestCallback cfg options).2 = [] := by
  unfold _invokeBeforeRequestCallback
  split <;> rfl

/-- C9: in a browser-like environment with pass-through enabled, `send(options)`
calls the external ajax function exactly once, with the options produced by the
before-request callback (the original options when no callback is registered or
when it returns a falsy value), returns exactly the value the ajax function
returned, and leaves the native request and the deferred of the instance
untouched: it builds no request and creates no deferred. -/
theorem pass_through_forwards (cfg : Config) (qs : QueryString) (self : Request)
    (options : JsVal) (ajax : JsVal → JsVal)
    (hb : cfg._isBrowser = true) (hp : cfg.useJQueryIfBrowser = true)
    (hajax : cfg._jQueryAjax = some ajax) :
    ∃ ev,
      send cfg qs self options =
        .ok (.external (ajax (effectiveOptions cfg options)),
          { self with _settings := effectiveOptions cfg options }, ev) ∧
      ajaxCalls ev = [effectiveOptions cfg options] ∧
      (cfg._onBeforeRequest = none → effectiveOptions cfg options = options) ∧
      (∀ cb, cfg._onBeforeRequest = some cb →
        effectiveOptions cfg options = if truthy (cb options) then cb options else options) := by
  refine ⟨_testAllowedOptions options ++ [] ++ (_invokeBeforeRequestCallback cfg options).2
    ++ [.ajax (effectiveOptions cfg options)], ?_, ?_, ?_, ?_⟩
  · unfold send
    simp [hb, hp, hajax, assertions, effectiveOptions]
  · simp [ajaxCalls_append, ajaxCalls_testAllowedOptions, ajaxCalls_beforeRequest]
    rfl
  · intro h
    simp [effectiveOptions, _invokeBeforeRequestCallback, h]
  · intro cb h
    simp [effectiveOptions, _invokeBeforeRequestCallback, h, jsOr]

/-- C9, the example of the test suite: `requ` of the test options with
pass-through enabled calls the ajax function once, with url 'my/url', type 'get'
(not upper-cased) and dataType 'json'. -/
theorem pass_through_forwards_witness :
    (∃ ev,
      send passThroughConfig plainQs Request.new (.obj testOptions) =
        .ok (.external ((fun o => JsVal.obj [("jqXHR", o.get "url")])
            (effectiveOptions passThroughConfig (.obj testOptions))),
          { Request.new with _settings := effectiveOptions passThroughConfig (.obj testOptions) },
          ev) ∧
      ajaxCalls ev = [effectiveOptions passThroughConfig (.obj testOptions)] ∧
      (passThroughConfig._onBeforeRequest = none →
        effectiveOptions passThroughConfig (.obj testOptions) = .obj testOptions) ∧
      (∀ cb, passThroughConfig._onBeforeRequest = some cb →
        effectiveOptions passThroughConfig (.obj testOptions) =
          if truthy (cb (.obj testOptions)) then cb (.obj testOptions) else .obj testOptions)) ∧
    (effectiveOptions passThroughConfig (.obj testOptions)).get "url" = .str "my/url" ∧
    (effectiveOptions passThroughConfig (.obj testOptions)).get "type" = .str "get" ∧
    (effectiveOptions passThroughConfig (.obj testOptions)).get "dataType" = .str "json" :=
  ⟨pass_through_forwards passThroughConfig plainQs Request.new (.obj testOptions)
    (fun o => .obj [("jqXHR", o.get "url")]) rfl rfl rfl, rfl, rfl, rfl⟩

theorem useBody_iff (m : String) :
    _useRequestBodyForMethod (.str m) = true ↔ m ∈ methodsWithBody := by
  simp [_useRequestBodyForMethod, methodsWithBody]

theorem attachData_body (qs : QueryString) (method : String) (settings : Obj)
    (request : SARequest) (hd : truthy (settings.get "data") = true)
    (he : isEmpty (settings.get "data") = false) (hb : method ∈ methodsWithBody) :
    attachData qs method settings request =
      .ok (settings, request.call (.send (settings.get "data"))) := by
  unfold attachData
  simp [hd, he, (useBody_iff method).mpr hb]

theorem attachData_query (qs : QueryString) (method : String) (settings s1 : Obj)
    (request r2 : SARequest) (hd : truthy (settings.get "data") = true)
    (he : isEmpty (settings.get "data") = false) (hb : method ∉ methodsWithBody)
    (h : attachData qs method settings request = .ok (s1, r2)) :
    ∃ url, extendURL qs (settings.get "url") (settings.get "data") = .ok url ∧
      s1 = settings.set "url" (.str url) ∧
      r2 = request.call (.query (settings.get "data")) := by
  unfold attachData at h
  have hb' : _useRequestBodyForMethod (.str method) = false := by
    rw [← Bool.not_eq_true, useBody_iff]; exact hb
  simp only [hd, he, hb', Bool.not_false, Bool.and_self, if_true, Bool.false_eq_true,
    if_false] at h
  cases hu : extendURL qs (settings.get "url") (settings.get "data") with
  | error e => simp [hu] at h
  | ok url =>
    simp only [hu, Except.ok.injEq, Prod.mk.injEq] at h
    exact ⟨url, rfl, h.1.symm, h.2.symm⟩

theorem attachData_none (qs : QueryString) (method : String) (settings : Obj)
    (request : SARequest)
    (hd : (truthy (settings.get "data") && !isEmpty (settings.get "data")) = false) :
    attachData qs method settings request = .ok (settings, request) := by
  unfold attachData
  simp [hd]

theorem sent_call_send (r : SARequest) (d : JsVal) : (r.call (.send d)).sent = r.sent ++ [d] := by
  simp [SARequest.sent, SARequest.call, List.filterMap_append]

theorem queried_call_send (r : SARequest) (d : JsVal) : (r.call (.send d)).queried = r.queried := by
  simp [SARequest.queried, SARequest.call, List.filterMap_append]

theorem sent_call_query (r : SARequest) (d : JsVal) : (r.call (.query d)).sent = r.sent := by
  simp [SARequest.sent, SARequest.call, List.filterMap_append]

theorem queried_call_query (r : SARequest) (d : JsVal) :
    (r.call (.query d)).queried = r.queried ++ [d] := by
  simp [SARequest.queried, SARequest.call, List.filterMap_append]

theorem truthy_str_of_ne (u : String) (h : u ≠ "") : truthy (.str u) = true := by
  simp only [truthy, bne_iff_ne, ne_eq]
  intro hd
  apply h
  cases u
  simp_all

/-- The settings and the request of a direct dispatch of an options object, in
terms of the options merged over the defaults. -/
theorem dispatch_of_obj (cfg : Config) (qs : QueryString) (self self' : Request)
    (options : JsVal) (h : Option Handle) (ev : List Event) (src : Obj)
    (hidle : self._requXhr = none) (ho : effectiveOptions cfg options = .obj src)
    (hok : sendUsingSuperAgent cfg qs self options = .ok (h, self', ev)) :
    ∃ (t fn : String) (request1 : SARequest) (settings1 : Obj) (request2 : SARequest)
      (settings2 : Obj) (request3 : SARequest),
      (mergedOptions src).get "type" = .str t ∧
      methodsMap.lookup (toUpperCase t) = some fn ∧
      (⟨fn, (mergedOptions src).get "url", []⟩ : SARequest).sameTraffic request1 ∧
      attachData qs (toUpperCase t) ((mergedOptions src).set "type" (.str (toUpperCase t)))
        request1 = .ok (settings1, request2) ∧
      forceContentLength (toUpperCase t) settings1 = .ok settings2 ∧
      request2.sameTraffic request3 ∧
      h = some Handle.dispatched ∧
      self' = ⟨.obj settings2, some request3,
        some (_attachCallbacks Deferred.fresh settings2).1, some Handle.dispatched,
        some (contextOf ((mergedOptions src).set "type" (.str (toUpperCase t))))⟩ ∧
      ev = (_invokeBeforeRequestCallback cfg options).2
        ++ dispatchAssertions ((mergedOptions src).set "type" (.str (toUpperCase t)))
          (toUpperCase t)
        ++ (_attachCallbacks Deferred.fresh settings2).2 := by
  obtain ⟨settings0, m, request0, request1, settings1, request2, settings2, request3, h0, hm,
    h1, h2, h3, h4, h5, eh, es, ee⟩ := sendUsingSuperAgent_inv cfg qs self self' options h ev
      hidle hok
  rw [ho] at h0
  obtain ⟨src', t, hsrc, ht, hs0⟩ := formatSettings_inv _ _ h0
  simp only [extendSource, Except.ok.injEq] at hsrc
  subst hsrc
  subst hs0
  have hm' : m = toUpperCase t := by
    rw [Obj.get_set] at hm
    simpa using hm.symm
  subst hm'
  rw [toUpperCase_idem] at h1 h3 h4 ee
  rw [get_set_type _ _ _ (by decide)] at h1
  cases hl : methodsMap.lookup (toUpperCase t) with
  | none => simp [hl, _makeSARequestInstance] at h1
  | some fn =>
    simp only [hl, _makeSARequestInstance, Except.ok.injEq] at h1
    subst h1
    refine ⟨t, fn, request1, settings1, request2, settings2, request3.call .endCall, ht, hl,
      bindEventListeners_sameTraffic _ _ _ _ h2, h3, h4, ?_, eh, es, ee⟩
    exact sameTraffic_trans (sameTraffic_trans (setTypeHeaders_sameTraffic _ _ _)
      (applyHeaders_sameTraffic _ _ _ h5)) (sameTraffic_call _ _ (by simp))

theorem Obj.has_of_get_ne (o : Obj) (k : String) (h : Obj.get o k ≠ .undefined) :
    Obj.has o k = true := by
  by_contra hn
  exact h (Obj.get_of_not_has o k (by simpa using hn))

theorem mergedOptions_get_of_get (src : Obj) (k : String) (h : Obj.get src k ≠ .undefined) :
    (mergedOptions src).get k = Obj.get src k := by
  rw [mergedOptions_get, Obj.has_of_get_ne src k h]
  simp

/-- C6: for every direct dispatch of well-typed options whose method is, in any
letter case, POST, PUT or PATCH, with non-empty data, contentType set and a
non-empty url: the dispatch returns a handle; the native request is built by the
builder of that method for that url, receives exactly one `send`, of the data
supplied, and no `query`; the contentType check passes; and the url of the
settings and `getSARequestFullURL()` both equal the input url. -/
theorem body_method_sends_data (cfg : Config) (qs : QueryString) (self : Request)
    (options : JsVal) (src : Obj) (t u : String)
    (hidle : self._requXhr = none)
    (hwt : wellTyped cfg (effectiveOptions cfg options) = true)
    (ho : effectiveOptions cfg options = .obj src)
    (ht : Obj.get src "type" = .str t) (hbody : toUpperCase t ∈ methodsWithBody)
    (hdata : truthy (Obj.get src "data") = true) (hne : isEmpty (Obj.get src "data") = false)
    (hct : truthy (Obj.get src "contentType") = true)
    (hu : Obj.get src "url" = .str u) (hu0 : u ≠ "") :
    ∃ self' ev request,
      sendUsingSuperAgent cfg qs self options = .ok (some Handle.dispatched, self', ev) ∧
      self'._request = some request ∧
      methodsMap.lookup (toUpperCase t) = some request.methodFn ∧
      request.url = .str u ∧
      request.sent = [Obj.get src "data"] ∧ request.queried = [] ∧
      contentTypeAssertion (Obj.get src "data") (Obj.get src "contentType") (toUpperCase t)
        = true ∧
      (getRequestSettings self').get "url" = .str u ∧
      getSARequestFullURL qs self' = .ok (some (.str u)) := by
  obtain ⟨self', ev, hok⟩ := sendUsingSuperAgent_returns cfg qs self options hidle hwt
  obtain ⟨t', fn, request1, settings1, request2, settings2, request3, ht', hfn, hr1, h3, h4,
    hr3, _, es, _⟩ := dispatch_of_obj cfg qs self self' options _ ev src hidle ho hok
  have hty : (mergedOptions src).get "type" = .str t := by
    rw [mergedOptions_get_of_get _ _ (by rw [ht]; simp), ht]
  rw [hty] at ht'
  simp only [JsVal.str.injEq] at ht'
  subst ht'
  have hd0 : ((mergedOptions src).set "type" (.str (toUpperCase t))).get "data"
      = Obj.get src "data" := by
    rw [get_set_type _ _ _ (by decide), mergedOptions_get_other _ _ (by rfl)]
  have hu1 : (mergedOptions src).get "url" = .str u := by
    rw [mergedOptions_get_other _ _ (by rfl), hu]
  rw [attachData_body qs _ _ _ (by rw [hd0]; exact hdata) (by rw [hd0]; exact hne) hbody,
    hd0] at h3
  simp only [Except.ok.injEq, Prod.mk.injEq] at h3
  obtain ⟨e1, e2⟩ := h3
  subst e1 e2
  have hurl3 : request3.url = .str u := by rw [hr3.2.1]; simp [SARequest.call, hr1.2.1, hu1]
  have hs2url : settings2.get "url" = .str u := by
    rw [forceContentLength_get _ _ _ _ h4 (by decide), get_set_type _ _ _ (by decide), hu1]
  have hs2data : settings2.get "data" = Obj.get src "data" := by
    rw [forceContentLength_get _ _ _ _ h4 (by decide), hd0]
  have hs2type : settings2.get "type" = .str (toUpperCase t) := by
    rw [forceContentLength_get _ _ _ _ h4 (by decide), Obj.get_set]; simp
  refine ⟨self', ev, request3, hok, by rw [es], ?_, hurl3, ?_, ?_, ?_, ?_, ?_⟩
  · rw [hfn, hr3.1]; simp [SARequest.call, hr1.1]
  · rw [hr3.2.2.1, sent_call_send, hr1.2.2.1]; rfl
  · rw [hr3.2.2.2, queried_call_send, hr1.2.2.2]; rfl
  · simp [contentTypeAssertion, hdata, hct]
  · rw [es]; simpa [getRequestSettings, JsVal.get] using hs2url
  · rw [es]
    have hud : ¬ u.data = [] := by simpa [truthy] using truthy_str_of_ne u hu0
    simp [getSARequestFullURL, hurl3, hud, JsVal.get, hs2data, hdata,
      hs2type, (useBody_iff _).mpr hbody, truthy]

/-- C6, the example of the test suite: type 'post', data `bar: 1`, contentType
'application/json' calls `post('my/url')` and `send` with that data. -/
theorem body_method_sends_data_witness :
    toUpperCase "post" ∈ methodsWithBody ∧
    ∃ self' ev request,
      sendUsingSuperAgent directConfig plainQs Request.new (.obj postOptions) =
        .ok (some Handle.dispatched, self', ev) ∧
      self'._request = some request ∧
      methodsMap.lookup (toUpperCase "post") = some request.methodFn ∧
      request.url = .str "my/url" ∧
      request.sent = [Obj.get postOptions "data"] ∧ request.queried = [] ∧
      contentTypeAssertion (Obj.get postOptions "data") (Obj.get postOptions "contentType")
        (toUpperCase "post") = true ∧
      (getRequestSettings self').get "url" = .str "my/url" ∧
      getSARequestFullURL plainQs self' = .ok (some (.str "my/url")) :=
  ⟨by decide,
    body_method_sends_data directConfig plainQs Request.new (.obj postOptions) postOptions
      "post" "my/url" rfl rfl rfl rfl (by decide) rfl rfl rfl rfl (by decide)⟩

theorem unsupported_method_message_ne (m : String) :
    "superagent version does not support method \"" ++ m ++ "\"" ≠ contentTypeMessage := by
  intro h
  have h2 := congrArg (fun s => s.data.head?) h
  simp [String.data_append, contentTypeMessage] at h2

theorem unsupported_dataType_message_ne (m : String) :
    "options.dataType value \"" ++ m ++ "\" is not supported" ≠ contentTypeMessage := by
  intro h
  have h2 := congrArg (fun s => s.data.take 9) h
  simp [String.data_append, contentTypeMessage] at h2

theorem subscribe_pending (d : Deferred) (kind : SubKind) (cb : JsVal)
    (h : d.state = .pending) :
    (d.subscribe kind cb).1.state = .pending ∧ (d.subscribe kind cb).2 = [] ∧
      (d.subscribe kind cb).1.subscriptions = d.subscriptions ++ [(kind, cb)] := by
  unfold Deferred.subscribe
  simp [h]

theorem subscribe_state (d : Deferred) (kind : SubKind) (cb : JsVal) (h : d.state = .pending) :
    (d.subscribe kind cb).1.state = .pending := (subscribe_pending d kind cb h).1

theorem subscribe_events (d : Deferred) (kind : SubKind) (cb : JsVal) (h : d.state = .pending) :
    (d.subscribe kind cb).2 = [] := (subscribe_pending d kind cb h).2.1

theorem subscribe_if_pending (d : Deferred) (c : Bool) (kind : SubKind) (cb : JsVal)
    (h : d.state = .pending) :
    (if c = true then d.subscribe kind cb else (d, [])).1.state = .pending ∧
      (if c = true then d.subscribe kind cb else (d, [])).2 = [] := by
  cases c <;> simp [h, subscribe_state, subscribe_events]

theorem attachCallbacks_pending (d : Deferred) (options : Obj) (h : d.state = .pending) :
    (_attachCallbacks d options).1.state = .pending ∧ (_attachCallbacks d options).2 = [] := by
  obtain ⟨a1, b1⟩ := subscribe_if_pending d
    (truthy (jsOr (options.get "success") (options.get "done"))) .done
    (jsOr (options.get "success") (options.get "done")) h
  obtain ⟨a2, b2⟩ := subscribe_if_pending _
    (truthy (jsOr (options.get "error") (options.get "fail"))) .fail
    (jsOr (options.get "error") (options.get "fail")) a1
  obtain ⟨a3, b3⟩ := subscribe_if_pending _
    (truthy (jsOr (options.get "complete") (options.get "always"))) .always
    (jsOr (options.get "complete") (options.get "always")) a2
  have key : ∀ (x y z : List Event), x = [] → y = [] → z = [] → x ++ y ++ z = [] := by
    intro x y z hx hy hz
    rw [hx, hy, hz]
    rfl
  exact ⟨a3, key _ _ _ b1 b2 b3⟩

theorem assertFailed_mem_dispatchAssertions (settings : Obj) (method : String) :
    Event.assertFailed contentTypeMessage ∈ dispatchAssertions settings method ↔
      contentTypeAssertion (settings.get "data") (settings.get "contentType") method = false := by
  have e1 : ¬ (contentTypeMessage = "options.type \"undefined\" not supported") := by decide
  have e2 : ¬ (contentTypeMessage = "options.url is required") := by decide
  have e3 : ¬ (contentTypeMessage = "options.dataType is required") := by decide
  have e4 : ¬ (contentTypeMessage =
      "superagent version does not support method \"" ++ method ++ "\"") :=
    fun h => unsupported_method_message_ne method (Eq.symm h)
  have e5 : ¬ (contentTypeMessage = "options.dataType value \""
      ++ jsString (settings.get "dataType") ++ "\" is not supported") :=
    fun h => unsupported_dataType_message_ne (jsString (settings.get "dataType")) (Eq.symm h)
  simp [dispatchAssertions, assertions, e1, e2, e3, e4, e5]

theorem assertFailed_not_mem_beforeRequest (cfg : Config) (options : JsVal) (msg : String) :
    Event.assertFailed msg ∉ (_invokeBeforeRequestCallback cfg options).2 := by
  unfold _invokeBeforeRequestCallback
  split <;> simp

theorem contentTypeAssertion_false_iff (data contentType : JsVal) (method : String) :
    contentTypeAssertion data contentType method = false ↔
      truthy data = true ∧ truthy contentType = false ∧ method ∈ methodsWithBody := by
  unfold contentTypeAssertion
  rw [← useBody_iff]
  cases truthy data <;> cases truthy contentType <;>
    cases _useRequestBodyForMethod (.str method) <;> simp

/-- C7: in a direct dispatch the contentType contract check is violated if and
only if data is present (truthy), contentType is absent (falsy) and the
upper-cased method is one of POST, PUT, PATCH. This holds of the condition of the
assertion for all values, and of every direct dispatch of an options object: the
dispatch of well-typed options returns, and in every dispatch that returns the
failure of that assertion is reported exactly in that case. -/
theorem contentType_check_violated_iff (cfg : Config) (qs : QueryString) (self : Request)
    (options : JsVal) (src : Obj) (hidle : self._requXhr = none)
    (ho : effectiveOptions cfg options = .obj src) :
    (∀ (data contentType : JsVal) (method : String),
      contentTypeAssertion data contentType (toUpperCase method) = false ↔
        truthy data = true ∧ truthy contentType = false ∧
          toUpperCase method ∈ ["POST", "PUT", "PATCH"]) ∧
    (wellTyped cfg (effectiveOptions cfg options) = true →
      ∃ self' ev,
        sendUsingSuperAgent cfg qs self options = .ok (some Handle.dispatched, self', ev)) ∧
    ∀ h self' ev, sendUsingSuperAgent cfg qs self options = .ok (h, self', ev) →
      ∃ t, (mergedOptions src).get "type" = .str t ∧
        (Event.assertFailed contentTypeMessage ∈ ev ↔
          truthy (Obj.get src "data") = true ∧ truthy (Obj.get src "contentType") = false ∧
            toUpperCase t ∈ ["POST", "PUT", "PATCH"]) := by
  refine ⟨fun data contentType method => contentTypeAssertion_false_iff _ _ _,
    fun hwt => sendUsingSuperAgent_returns cfg qs self options hidle hwt, ?_⟩
  intro h self' ev hok
  obtain ⟨t, fn, request1, settings1, request2, settings2, request3, ht, _, _, _, _, _, _, _,
    ee⟩ := dispatch_of_obj cfg qs self self' options h ev src hidle ho hok
  refine ⟨t, ht, ?_⟩
  rw [ee]
  simp only [List.mem_append, assertFailed_not_mem_beforeRequest, false_or,
    (attachCallbacks_pending Deferred.fresh settings2 rfl).2, List.not_mem_nil, or_false,
    assertFailed_mem_dispatchAssertions, contentTypeAssertion_false_iff]
  rw [get_set_type _ _ _ (by decide), get_set_type _ _ _ (by decide),
    mergedOptions_get_other _ _ (by rfl), mergedOptions_get_other _ _ (by rfl)]
  rfl

/-- C7, an example: `requ` with type 'post' and data but no contentType reports
the failed contentType assertion. -/
theorem contentType_check_violated_iff_witness :
    Request.new._requXhr = none ∧
    ∀ h self' ev,
      sendUsingSuperAgent directConfig plainQs Request.new (.obj uncheckedPostOptions)
        = .ok (h, self', ev) →
      ∃ t, (mergedOptions uncheckedPostOptions).get "type" = .str t ∧
        (Event.assertFailed contentTypeMessage ∈ ev ↔
          truthy (Obj.get uncheckedPostOptions "data") = true ∧
            truthy (Obj.get uncheckedPostOptions "contentType") = false ∧
            toUpperCase t ∈ ["POST", "PUT", "PATCH"]) :=
  ⟨rfl, (contentType_check_violated_iff directConfig plainQs Request.new
    (.obj uncheckedPostOptions) uncheckedPostOptions rfl rfl).2.2⟩

/-- C5, the code at a url whose query string contains a question mark: for
`my/url?q=what?&page=2`, type 'get' and data `baz: 4`, the data goes through
`query` and not through `send`, but the url of the settings becomes
`my/url?q=what&baz=4`: the parameter `page`, present in the query string of the
input url, is missing from it, and `q` has lost the end of its value. -/
theorem query_after_question_mark_dropped :
    (dispatched directConfig plainQs (.obj questionMarkOptions))._settings.get "url"
      = .str "my/url?q=what&baz=4" ∧
    (dispatched directConfig plainQs (.obj questionMarkOptions))._request.map SARequest.queried
      = some [.obj [("baz", .num 4)]] ∧
    (dispatched directConfig plainQs (.obj questionMarkOptions))._request.map SARequest.sent
      = some [] ∧
    queryStringOf "my/url?q=what?&page=2" = "q=what?&page=2" ∧
    Obj.get (plainQs.parse (queryStringOf "my/url?q=what?&page=2")) "page" = .str "2" ∧
    Obj.get (plainQs.parse (queryStringOf "my/url?q=what?&page=2")) "q" = .str "what?" ∧
    Obj.has (plainQs.parse (queryStringOf "my/url?q=what&baz=4")) "page" = false ∧
    Obj.get (plainQs.parse (queryStringOf "my/url?q=what&baz=4")) "q" = .str "what" :=
  ⟨rfl, rfl, rfl, rfl, rfl, rfl, rfl, rfl⟩

/-! ## The receiver of the callbacks -/

theorem attachData_described (qs : QueryString) (src : Obj) (t : String) (r r2 : SARequest)
    (s1 : Obj) (ht : (mergedOptions src).get "type" = .str t)
    (h : attachData qs (toUpperCase t) ((mergedOptions src).set "type" (.str (toUpperCase t))) r
      = .ok (s1, r2)) :
    describedSettings qs src = .ok s1 := by
  unfold describedSettings
  simp only [ht]
  unfold attachData at h
  by_cases hd : (truthy (((mergedOptions src).set "type" (.str (toUpperCase t))).get "data")
      && !isEmpty (((mergedOptions src).set "type" (.str (toUpperCase t))).get "data")) = true
  · simp only [hd, if_true] at h
    by_cases hb : _useRequestBodyForMethod (.str (toUpperCase t)) = true
    · simp only [hb, if_true, Except.ok.injEq, Prod.mk.injEq] at h
      simp [hd, hb, h.1]
    · simp only [hb, Bool.false_eq_true, if_false] at h
      simp only [hd, hb, Bool.not_false, Bool.and_self, if_true]
      cases hu : extendURL qs (((mergedOptions src).set "type" (.str (toUpperCase t))).get "url")
          (((mergedOptions src).set "type" (.str (toUpperCase t))).get "data") with
      | error e => simp [hu] at h
      | ok url =>
        simp only [hu, Except.ok.injEq, Prod.mk.injEq] at h
        simp [h.1]
  · simp only [hd, Bool.false_eq_true, if_false, Except.ok.injEq, Prod.mk.injEq] at h
    have hd' := Bool.eq_false_iff.mpr hd
    rw [← h.1, hd']
    rfl

theorem forceContentLength_eq (method : String) (s s2 : Obj)
    (h : forceContentLength method s = .ok s2) :
    s2 = if method = "DELETE" then withForcedContentLength s else s := by
  unfold forceContentLength at h
  by_cases hm : method = "DELETE"
  · simp only [hm, if_true] at h ⊢
    unfold withForcedContentLength
    unfold jsOr at h
    by_cases hh : truthy (s.get "headers") = true
    · simp only [hh, if_true] at h
      split at h
      · rename_i f hf
        simp only [Except.ok.injEq] at h
        rw [← h, hf]
      · simp at h
      · simp at h
    · simp only [hh, Bool.false_eq_true, if_false, Except.ok.injEq] at h
      rw [← h]
      cases hv : s.get "headers" with
      | obj f => simp [hv, truthy] at hh
      | _ => rfl
  · simp only [hm, if_false, Except.ok.injEq] at h ⊢
    exact h.symm

theorem invokedReceivers_after (cfg : Config) (err : JsVal) (response : Option SAResponse) :
    invokedReceivers (_invokeAfterSARequestCallback cfg err response) = [] := by
  unfold _invokeAfterSARequestCallback
  split <;> rfl

theorem invokedReceivers_append (a b : List Event) :
    invokedReceivers (a ++ b) = invokedReceivers a ++ invokedReceivers b := by
  simp [invokedReceivers, List.filterMap_append]

theorem invokedReceivers_map (cbs : List JsVal) (c : Receiver) (args : List Arg) :
    invokedReceivers (cbs.map (fun cb => Event.invoke cb c args)) = cbs.map (fun _ => c) := by
  induction cbs with
  | nil => rfl
  | cons cb cbs ih =>
    simp only [List.map_cons]
    rw [← ih]
    rfl

/-- The completion of a dispatch that has just returned: whatever the error and
the response, the handler returns, settles the deferred with the receiver of the
instance, invokes callbacks with that receiver only, leaves the settings alone
and clears the in-flight handle. -/
theorem completion_after_dispatch (cfg : Config) (self : Request) (dfd : Deferred)
    (err : JsVal) (response : Option SAResponse)
    (hx : self._requXhr = some Handle.dispatched) (hd : self._deferred = some dfd)
    (hp : dfd.state = .pending) :
    ∃ self'' ev' d,
      _onSARequestEnd cfg self err response = .ok (self'', ev') ∧
      self''._settings = self._settings ∧ self''._requXhr = none ∧
      self''._deferred = some d ∧ d.state.receiver? = some self.receiver ∧
      ∀ c ∈ invokedReceivers ev', c = self.receiver := by
  unfold _onSARequestEnd
  simp only [hx, hd]
  by_cases he : truthy err = true
  · simp only [he, if_true, Deferred.rejectWith, hp]
    refine ⟨_, _, _, rfl, rfl, rfl, rfl, rfl, ?_⟩
    intro c hc
    rw [invokedReceivers_append, invokedReceivers_after, invokedReceivers_map] at hc
    simp only [List.nil_append, List.mem_map] at hc
    obtain ⟨_, _, e⟩ := hc
    exact e.symm
  · simp only [he, Bool.false_eq_true, if_false]
    split
    · simp only [Deferred.rejectWith, hp]
      refine ⟨_, _, _, rfl, rfl, rfl, rfl, rfl, ?_⟩
      intro c hc
      rw [invokedReceivers_append, invokedReceivers_after, invokedReceivers_map] at hc
      simp only [List.nil_append, List.mem_map] at hc
      obtain ⟨_, _, e⟩ := hc
      exact e.symm
    · rename_i hs
      cases response with
      | none => exact absurd rfl hs
      | some r =>
        simp only [Deferred.resolveWith, hp]
        refine ⟨_, _, _, rfl, rfl, rfl, rfl, rfl, ?_⟩
        intro c hc
        rw [invokedReceivers_append, invokedReceivers_after, invokedReceivers_map] at hc
        simp only [List.nil_append, List.mem_map] at hc
        obtain ⟨_, _, e⟩ := hc
        exact e.symm

/-- C10 as amended: for every direct dispatch of well-typed options and every
completion, the dispatch and the completion handler return, and the receiver with
which the deferred is settled, which is also the receiver of every callback then
invoked, is the context of the options when it is truthy and otherwise the
settings object of the dispatch; that object is the options merged over the
defaults with type upper-cased and url equal to the query-augmented URL when data
is sent as query parameters and, when the method is DELETE, with `Content-Length:
0` added to its headers. -/
theorem receiver_is_context_or_settings (cfg : Config) (qs : QueryString) (self : Request)
    (options : JsVal) (src : Obj) (err : JsVal) (response : Option SAResponse)
    (hidle : self._requXhr = none)
    (hwt : wellTyped cfg (effectiveOptions cfg options) = true)
    (ho : effectiveOptions cfg options = .obj src) :
    ∃ self' ev self'' ev' dfd t described,
      sendUsingSuperAgent cfg qs self options = .ok (some Handle.dispatched, self', ev) ∧
      _onSARequestEnd cfg self' err response = .ok (self'', ev') ∧
      (mergedOptions src).get "type" = .str t ∧
      describedSettings qs src = .ok described ∧
      getRequestSettings self'' = .obj
        (if toUpperCase t = "DELETE" then withForcedContentLength described else described) ∧
      self''._deferred = some dfd ∧
      dfd.state.receiver? = some
        (if truthy (Obj.get src "context") then .value (Obj.get src "context")
          else .settings (getRequestSettings self'')) ∧
      ∀ c ∈ invokedReceivers ev',
        c = if truthy (Obj.get src "context") then .value (Obj.get src "context")
          else .settings (getRequestSettings self'') := by
  obtain ⟨self', ev, hok⟩ := sendUsingSuperAgent_returns cfg qs self options hidle hwt
  obtain ⟨t, fn, request1, settings1, request2, settings2, request3, ht, _, _, h3, h4, _, _,
    es, _⟩ := dispatch_of_obj cfg qs self self' options _ ev src hidle ho hok
  have hdesc := attachData_described qs src t _ _ _ ht h3
  have hs2 := forceContentLength_eq _ _ _ h4
  have hpend := (attachCallbacks_pending Deferred.fresh settings2 rfl).1
  obtain ⟨self'', ev', d, hc, hset, _, hdfd, hrecv, hinv⟩ :=
    completion_after_dispatch cfg self' _ err response (by rw [es]) (by rw [es]) hpend
  have hctx : ((mergedOptions src).set "type" (.str (toUpperCase t))).get "context"
      = Obj.get src "context" := by
    rw [get_set_type _ _ _ (by decide), mergedOptions_get_other _ _ (by rfl)]
  have hr : self'.receiver =
      if truthy (Obj.get src "context") then .value (Obj.get src "context")
      else .settings (getRequestSettings self'') := by
    rw [getRequestSettings, hset, es]
    simp only [Request.receiver, contextOf, hctx]
    by_cases hc0 : truthy (Obj.get src "context") = true <;> simp [hc0]
  refine ⟨self', ev, self'', ev', d, t, settings1, hok, hc, ht, hdesc, ?_, hdfd, ?_, ?_⟩
  · rw [getRequestSettings, hset, es, hs2]
  · rw [hrecv, hr]
  · intro c hc'
    rw [hinv c hc', hr]

/-- C10, the examples of the test suite: with no context, type 'get' and data
`baz: 4`, the receiver is the settings object, whose type is 'GET', whose
dataType is 'json' and whose url is `extendURL('my/url', data)`. -/
theorem receiver_is_context_or_settings_witness :
    wellTyped directConfig (effectiveOptions directConfig (.obj queryOptions)) = true ∧
    (∃ self' ev self'' ev' dfd t described,
      sendUsingSuperAgent directConfig plainQs Request.new (.obj queryOptions)
        = .ok (some Handle.dispatched, self', ev) ∧
      _onSARequestEnd directConfig self' .null (some fakeResponseObj) = .ok (self'', ev') ∧
      (mergedOptions queryOptions).get "type" = .str t ∧
      describedSettings plainQs queryOptions = .ok described ∧
      getRequestSettings self'' = .obj
        (if toUpperCase t = "DELETE" then withForcedContentLength described else described) ∧
      self''._deferred = some dfd ∧
      dfd.state.receiver? = some
        (if truthy (Obj.get queryOptions "context") then .value (Obj.get queryOptions "context")
          else .settings (getRequestSettings self'')) ∧
      ∀ c ∈ invokedReceivers ev',
        c = if truthy (Obj.get queryOptions "context") then
            .value (Obj.get queryOptions "context")
          else .settings (getRequestSettings self'')) ∧
    (getRequestSettings (completed directConfig
        (dispatched directConfig plainQs (.obj queryOptions)) .null
        (some fakeResponseObj))).get "type" = .str "GET" ∧
    (getRequestSettings (completed directConfig
        (dispatched directConfig plainQs (.obj queryOptions)) .null
        (some fakeResponseObj))).get "dataType" = .str "json" ∧
    (getRequestSettings (completed directConfig
        (dispatched directConfig plainQs (.obj queryOptions)) .null
        (some fakeResponseObj))).get "url" = .str "my/url?baz=4" ∧
    (extendURL plainQs (.str "my/url") (.obj [("baz", .num 4)])).toOption = some "my/url?baz=4" :=
  ⟨rfl,
    receiver_is_context_or_settings directConfig plainQs Request.new (.obj queryOptions)
      queryOptions .null (some fakeResponseObj) rfl rfl rfl,
    rfl, rfl, rfl, rfl⟩

/-- The example of the test suite with a context: the receiver of the settlement
is the context `name: 'whoopsie-daisy'` of the options. -/
theorem context_option_is_receiver :
    (completed directConfig (dispatched directConfig plainQs (.obj contextOptions)) .null
        (some fakeResponseObj))._deferred.map (fun d => d.state.receiver?)
      = some (some (.value (.obj [("name", .str "whoopsie-daisy")]))) := rfl

/-- C10 as stated fails for DELETE: with the test options and type 'delete' (no
context, no headers), the receiver of the settlement is the settings object, and
its headers are `Content-Length: 0`, whereas the options merged over the defaults
with type upper-cased and url unchanged have no headers. -/
theorem delete_receiver_differs_from_described :
    ∃ dfd described,
      (completed directConfig (dispatched directConfig plainQs (.obj deleteOptions)) .null
        (some fakeResponseObj))._deferred = some dfd ∧
      describedSettings plainQs deleteOptions = .ok described ∧
      truthy (Obj.get deleteOptions "context") = false ∧
      dfd.state.receiver? = some (.settings (.obj (withForcedContentLength described))) ∧
      (withForcedContentLength described).get "headers"
        = .obj [("Content-Length", .num 0)] ∧
      described.get "headers" = .undefined ∧
      dfd.state.receiver? ≠ some (.settings (.obj described)) := by
  refine ⟨_, _, rfl, rfl, rfl, rfl, rfl, rfl, ?_⟩
  intro h
  have h2 := congrArg (fun r => (r.map Receiver.headers)) h
  have h3 : some (JsVal.obj [("Content-Length", JsVal.num 0)]) = some JsVal.undefined := h2
  simp at h3

/-! ## The query-augmented URL -/

theorem splitOnChar_ne_nil (c : Char) (l : List Char) : splitOnChar c l ≠ [] := by
  cases l with
  | nil => simp [splitOnChar]
  | cons x xs =>
    unfold splitOnChar
    by_cases h : x = c
    · simp [h]
    · simp only [h, if_false]
      split <;> simp

theorem splitOnChar_head (c : Char) (l : List Char) :
    (splitOnChar c l).headD [] = l.takeWhile (fun x => x != c) := by
  induction l with
  | nil => rfl
  | cons x xs ih =>
    unfold splitOnChar
    by_cases h : x = c
    · simp [h]
    · simp only [h, if_false]
      have hx : (x != c) = true := by simpa using h
      rw [List.takeWhile_cons, hx]
      cases hs : splitOnChar c xs with
      | nil => exact absurd hs (splitOnChar_ne_nil c xs)
      | cons seg segs =>
        rw [hs] at ih
        simp only [List.headD_cons] at ih
        simp [ih]

theorem splitOnChar_of_not_mem (c : Char) (l : List Char) (h : c ∉ l) : splitOnChar c l = [l] := by
  induction l with
  | nil => rfl
  | cons x xs ih =>
    simp only [List.mem_cons, not_or] at h
    unfold splitOnChar
    have hx : ¬ x = c := fun e => h.1 e.symm
    simp [hx, ih h.2]

/-- For a url with at most one question mark, the segment that `extendURL`
parses is the whole query string of the url. -/
theorem splitOnChar_second (l : List Char) (h : l.count '?' ≤ 1) :
    (splitOnChar '?' l).get? 1 =
      if '?' ∈ l then some ((l.dropWhile (fun x => x != '?')).drop 1) else none := by
  induction l with
  | nil => rfl
  | cons x xs ih =>
    unfold splitOnChar
    by_cases hx : x = '?'
    · subst hx
      have hc : '?' ∉ xs := by
        intro hm
        have := List.count_pos_iff.mpr hm
        simp only [List.count_cons_self] at h
        omega
      simp [splitOnChar_of_not_mem _ _ hc]
    · have hx' : (x != '?') = true := by simpa using hx
      have hx'' : ¬ '?' = x := fun e => hx e.symm
      simp only [hx, if_false]
      have hcount : List.count '?' (x :: xs) = List.count '?' xs := by
        simp [List.count_cons, hx]
      rw [hcount] at h
      have ih' := ih h
      cases hs : splitOnChar '?' xs with
      | nil => exact absurd hs (splitOnChar_ne_nil _ xs)
      | cons seg segs =>
        rw [hs] at ih'
        simp only [List.get?_cons_succ, List.mem_cons, hx'', false_or, List.dropWhile_cons, hx',
          if_true] at ih' ⊢
        exact ih'

/-- What `extendURL` returns for a string url and an object of data: the url up
to its first question mark, a question mark, and the stringified merge of the
data over the parameters parsed from the segment after it. In the merge every
key of the data has the value of the data, every other key keeps the parsed
value, and no key occurs twice. -/
theorem extendURL_merged (qs : QueryString) (u : String) (d : Obj) :
    ∃ existing : Obj,
      existing =
        (match (splitOnChar '?' u.data).get? 1 with
          | some q => if q != [] then qs.parse (String.mk q) else []
          | none => []) ∧
      extendURL qs (.str u) (.obj d) =
        .ok (String.mk (u.data.takeWhile (fun c => c != '?')) ++ "?"
          ++ qs.stringify (existing.extend d)) ∧
      (∀ k, (existing.extend d).get k = if Obj.has d k then Obj.get d k else existing.get k) ∧
      (∀ k, Obj.has (existing.extend d) k = (Obj.has existing k || Obj.has d k)) ∧
      (qs.ParsesToObject → (Obj.keys (existing.extend d)).Nodup) ∧
      (u.data.count '?' ≤ 1 →
        existing =
          if (queryStringOf u).data != [] then qs.parse (queryStringOf u) else []) := by
  refine ⟨_, rfl, ?_, fun k => Obj.get_extend _ _ k, fun k => Obj.has_extend _ _ k, ?_, ?_⟩
  · simp only [extendURL, extendSource, splitOnChar_head]
  · intro hp
    apply Obj.keys_extend_nodup
    split
    · split
      · exact hp _
      · exact List.nodup_nil
    · exact List.nodup_nil
  · intro hc
    rw [splitOnChar_second _ hc]
    unfold queryStringOf
    by_cases hm : '?' ∈ u.data
    · simp only [hm, if_true]
    · simp only [hm, if_false]
      have : List.dropWhile (fun c => c != '?') u.data = [] := by
        rw [List.dropWhile_eq_nil_iff]
        intro x hx
        have : ¬ x = '?' := fun e => hm (e ▸ hx)
        simpa using this
      simp [this]

/-- The part of C5 that holds of every dispatch: for well-typed options whose
method is not POST, PUT or PATCH, with non-empty data, the native request
receives exactly one `query`, of the data, and no `send`, and the url of the
settings is `extendURL(inputUrl, data)`. -/
theorem query_method_extends_url (cfg : Config) (qs : QueryString) (self : Request)
    (options : JsVal) (src d : Obj) (t u : String)
    (hidle : self._requXhr = none)
    (hwt : wellTyped cfg (effectiveOptions cfg options) = true)
    (ho : effectiveOptions cfg options = .obj src)
    (ht : (mergedOptions src).get "type" = .str t) (hq : toUpperCase t ∉ methodsWithBody)
    (hdata : Obj.get src "data" = .obj d) (hne : d ≠ [])
    (hu : Obj.get src "url" = .str u) :
    ∃ self' ev request url,
      sendUsingSuperAgent cfg qs self options = .ok (some Handle.dispatched, self', ev) ∧
      self'._request = some request ∧
      request.queried = [.obj d] ∧ request.sent = [] ∧ request.url = .str u ∧
      extendURL qs (.str u) (.obj d) = .ok url ∧
      (getRequestSettings self').get "url" = .str url := by
  obtain ⟨self', ev, hok⟩ := sendUsingSuperAgent_returns cfg qs self options hidle hwt
  obtain ⟨t', fn, request1, settings1, request2, settings2, request3, ht', hfn, hr1, h3, h4,
    hr3, _, es, _⟩ := dispatch_of_obj cfg qs self self' options _ ev src hidle ho hok
  rw [ht] at ht'
  simp only [JsVal.str.injEq] at ht'
  subst ht'
  have hd0 : ((mergedOptions src).set "type" (.str (toUpperCase t))).get "data" = .obj d := by
    rw [get_set_type _ _ _ (by decide), mergedOptions_get_other _ _ (by rfl), hdata]
  have hu0 : ((mergedOptions src).set "type" (.str (toUpperCase t))).get "url" = .str u := by
    rw [get_set_type _ _ _ (by decide), mergedOptions_get_other _ _ (by rfl), hu]
  have hu1 : (mergedOptions src).get "url" = .str u := by
    rw [mergedOptions_get_other _ _ (by rfl), hu]
  have hemp : isEmpty (.obj d) = false := by
    cases d with
    | nil => exact absurd rfl hne
    | cons _ _ => rfl
  obtain ⟨url, hext, e1, e2⟩ := attachData_query qs _ _ _ _ _ (by rw [hd0]; rfl)
    (by rw [hd0]; exact hemp) hq h3
  rw [hd0, hu0] at hext
  rw [hd0] at e2
  subst e1 e2
  refine ⟨self', ev, request3, url, hok, by rw [es], ?_, ?_, ?_, hext, ?_⟩
  · rw [hr3.2.2.2, queried_call_query, hr1.2.2.2]; rfl
  · rw [hr3.2.2.1, sent_call_query, hr1.2.2.1]; rfl
  · rw [hr3.2.1]; simp [SARequest.call, hr1.2.1, hu1]
  · rw [es]
    simp only [getRequestSettings, JsVal.get]
    rw [forceContentLength_get _ _ _ _ h4 (by decide), Obj.get_set]
    simp

/-! ## Further facts -/

/-- A direct dispatch that returns leaves the instance with an outstanding
dispatch: the in-flight handle is set and the deferred is pending. -/
theorem dispatch_outstanding (cfg : Config) (qs : QueryString) (self self' : Request)
    (options : JsVal) (h : Option Handle) (ev : List Event) (hidle : self._requXhr = none)
    (hok : sendUsingSuperAgent cfg qs self options = .ok (h, self', ev)) :
    self'._requXhr = some Handle.dispatched ∧
      ∃ d, self'._deferred = some d ∧ d.state = .pending := by
  obtain ⟨_, _, _, _, _, _, settings2, _, _, _, _, _, _, _, _, _, es, _⟩ :=
    sendUsingSuperAgent_inv cfg qs self self' options h ev hidle hok
  rw [es]
  exact ⟨rfl, _, rfl, (attachCallbacks_pending Deferred.fresh settings2 rfl).1⟩

theorem foldl_set_keys_nodup {α : Type} (f : α → String × JsVal) (l : List α) :
    ∀ acc : Obj, (Obj.keys acc).Nodup →
      (Obj.keys (l.foldl (fun acc x => Obj.set acc (f x).1 (f x).2) acc)).Nodup := by
  induction l with
  | nil => intro acc h; exact h
  | cons x xs ih =>
    intro acc h
    rw [List.foldl_cons]
    exact ih _ (Obj.keys_set_nodup acc _ _ h)

/-- The query-string library of the examples parses to objects. -/
theorem plainQs_parsesToObject : plainQs.ParsesToObject := by
  intro s
  exact foldl_set_keys_nodup
    (fun seg => (String.mk ((splitOnChar '=' seg).headD []),
      JsVal.str (String.mk (((splitOnChar '=' seg).drop 1).headD [])))) _ [] List.nodup_nil

/-! ## The accessors -/

/-- The settings and the request of a direct dispatch of an options object, as
the accessors read them: the type is the upper-cased type, the data is the data
of the options, and the request keeps the url of the options. -/
theorem dispatch_accessor_view (cfg : Config) (qs : QueryString) (self self' : Request)
    (options : JsVal) (h : Option Handle) (ev : List Event) (src : Obj)
    (hidle : self._requXhr = none) (ho : effectiveOptions cfg options = .obj src)
    (hok : sendUsingSuperAgent cfg qs self options = .ok (h, self', ev)) :
    ∃ (t : String) (settings : Obj) (request : SARequest),
      (mergedOptions src).get "type" = .str t ∧
      self'._settings = .obj settings ∧ self'._request = some request ∧
      settings.get "type" = .str (toUpperCase t) ∧
      settings.get "data" = Obj.get src "data" ∧
      request.url = Obj.get src "url" ∧
      request.queried =
        (if truthy (Obj.get src "data") && !isEmpty (Obj.get src "data")
            && !_useRequestBodyForMethod (.str (toUpperCase t))
          then [Obj.get src "data"] else []) := by
  obtain ⟨t, fn, request1, settings1, request2, settings2, request3, ht, _, hr1, h3, h4, hr3,
    _, es, _⟩ := dispatch_of_obj cfg qs self self' options h ev src hidle ho hok
  have hd0 : ((mergedOptions src).set "type" (.str (toUpperCase t))).get "data"
      = Obj.get src "data" := by
    rw [get_set_type _ _ _ (by decide), mergedOptions_get_other _ _ (by rfl)]
  have hu1 : (mergedOptions src).get "url" = Obj.get src "url" :=
    mergedOptions_get_other _ _ (by rfl)
  have h1 : settings1.get "type" = .str (toUpperCase t) ∧
      settings1.get "data" = Obj.get src "data" ∧
      request2.url = request1.url ∧
      request2.queried = request1.queried ++
        (if truthy (Obj.get src "data") && !isEmpty (Obj.get src "data")
            && !_useRequestBodyForMethod (.str (toUpperCase t))
          then [Obj.get src "data"] else []) := by
    unfold attachData at h3
    rw [hd0] at h3
    by_cases hd : (truthy (Obj.get src "data") && !isEmpty (Obj.get src "data")) = true
    · simp only [hd, if_true] at h3
      by_cases hb : _useRequestBodyForMethod (.str (toUpperCase t)) = true
      · simp only [hb, if_true, Except.ok.injEq, Prod.mk.injEq] at h3
        rw [← h3.1, ← h3.2, hd0, queried_call_send]
        simp [hb, Obj.get_set, SARequest.call]
      · simp only [hb, Bool.false_eq_true, if_false] at h3
        cases hu : extendURL qs
            (((mergedOptions src).set "type" (.str (toUpperCase t))).get "url")
            (Obj.get src "data") with
        | error e => simp [hu] at h3
        | ok url =>
          simp only [hu, Except.ok.injEq, Prod.mk.injEq] at h3
          rw [← h3.1, ← h3.2, queried_call_query]
          have e1 : ("url" == "type") = false := by decide
          have e2 : ("url" == "data") = false := by decide
          simp [hd, hb, Obj.get_set, SARequest.call, e1, e2, hd0]
    · simp only [hd, Bool.false_eq_true, if_false, Except.ok.injEq, Prod.mk.injEq] at h3
      rw [← h3.1, ← h3.2, hd0]
      simp [hd, Obj.get_set]
  refine ⟨t, settings2, request3, ht, by rw [es], by rw [es], ?_, ?_, ?_, ?_⟩
  · rw [forceContentLength_get _ _ _ _ h4 (by decide), h1.1]
  · rw [forceContentLength_get _ _ _ _ h4 (by decide), h1.2.1]
  · rw [hr3.2.1, h1.2.2.1, hr1.2.1, hu1]
  · rw [hr3.2.2.2, h1.2.2.2, hr1.2.2.2]
    rfl

/-- C12: `getSARequestPayload()` returns null before any dispatch; after a direct
dispatch of an options object it returns the data of the options when the type
is, in any letter case, POST, PUT or PATCH and the data is present (truthy), and
null in every other case; so it returns the data if and only if that condition
holds. The dispatch of well-typed options returns. -/
theorem payload_iff_body_method (cfg : Config) (qs : QueryString) (self : Request)
    (options : JsVal) (src : Obj) (hidle : self._requXhr = none)
    (ho : effectiveOptions cfg options = .obj src) :
    getSARequestPayload Request.new = none ∧
    (wellTyped cfg (effectiveOptions cfg options) = true →
      ∃ self' ev,
        sendUsingSuperAgent cfg qs self options = .ok (some Handle.dispatched, self', ev)) ∧
    ∀ h self' ev, sendUsingSuperAgent cfg qs self options = .ok (h, self', ev) →
      ∃ t, (mergedOptions src).get "type" = .str t ∧
        getSARequestPayload self' =
          (if toUpperCase t ∈ ["POST", "PUT", "PATCH"] ∧ truthy (Obj.get src "data") = true
            then some (Obj.get src "data") else none) ∧
        (getSARequestPayload self' = some (Obj.get src "data") ↔
          toUpperCase t ∈ ["POST", "PUT", "PATCH"] ∧ truthy (Obj.get src "data") = true) := by
  refine ⟨rfl, fun hwt => sendUsingSuperAgent_returns cfg qs self options hidle hwt, ?_⟩
  intro h self' ev hok
  obtain ⟨t, settings, request, ht, hs, _, hty, hdata, _, _⟩ :=
    dispatch_accessor_view cfg qs self self' options h ev src hidle ho hok
  have hval : getSARequestPayload self' =
      (if toUpperCase t ∈ ["POST", "PUT", "PATCH"] ∧ truthy (Obj.get src "data") = true
        then some (Obj.get src "data") else none) := by
    unfold getSARequestPayload
    simp only [hs, JsVal.get, hty, hdata, truthy, Bool.true_and, Bool.and_eq_true, useBody_iff]
    rfl
  refine ⟨t, ht, hval, ?_⟩
  rw [hval]
  by_cases hc : toUpperCase t ∈ ["POST", "PUT", "PATCH"] ∧ truthy (Obj.get src "data") = true
  · simp [hc]
  · simp only [hc, if_false, iff_false]
    intro hn
    cases hn

/-- C12, the examples of the test suite: type 'get' without data gives null,
type 'get' with data `foo: 'bar'` gives null, and type 'put' with contentType
'application/json' and that data gives the data. -/
theorem payload_iff_body_method_witness :
    (∀ h self' ev,
      sendUsingSuperAgent directConfig plainQs Request.new (.obj (fooBarBodyOptions "put"))
        = .ok (h, self', ev) →
      ∃ t, (mergedOptions (fooBarBodyOptions "put")).get "type" = .str t ∧
        getSARequestPayload self' =
          (if toUpperCase t ∈ ["POST", "PUT", "PATCH"]
              ∧ truthy (Obj.get (fooBarBodyOptions "put") "data") = true
            then some (Obj.get (fooBarBodyOptions "put") "data") else none) ∧
        (getSARequestPayload self' = some (Obj.get (fooBarBodyOptions "put") "data") ↔
          toUpperCase t ∈ ["POST", "PUT", "PATCH"]
            ∧ truthy (Obj.get (fooBarBodyOptions "put") "data") = true)) ∧
    getSARequestPayload (dispatched directConfig plainQs (.obj testOptions)) = none ∧
    getSARequestPayload (dispatched directConfig plainQs (.obj fooBarOptions)) = none ∧
    getSARequestPayload (dispatched directConfig plainQs (.obj (fooBarBodyOptions "put")))
      = some (.obj [("foo", .str "bar")]) :=
  ⟨(payload_iff_body_method directConfig plainQs Request.new (.obj (fooBarBodyOptions "put"))
    (fooBarBodyOptions "put") rfl rfl).2.2, rfl, rfl, rfl⟩

/-- What `getSARequestFullURL()` returns after a direct dispatch of an options
object with a non-empty url: `extendURL(url, data)` when the data is truthy and
the method carries no body, whether or not the dispatch sent the data, and the
url otherwise. -/
theorem fullURL_after_dispatch (cfg : Config) (qs : QueryString) (self self' : Request)
    (options : JsVal) (h : Option Handle) (ev : List Event) (src : Obj) (u : String)
    (hidle : self._requXhr = none) (ho : effectiveOptions cfg options = .obj src)
    (hok : sendUsingSuperAgent cfg qs self options = .ok (h, self', ev))
    (hu : Obj.get src "url" = .str u) (hu0 : u ≠ "") :
    ∃ t, (mergedOptions src).get "type" = .str t ∧
      getSARequestFullURL qs self' =
        if truthy (Obj.get src "data") = true ∧ toUpperCase t ∉ ["POST", "PUT", "PATCH"] then
          (match extendURL qs (.str u) (Obj.get src "data") with
            | .ok url => .ok (some (.str url))
            | .error e => .error e)
        else .ok (some (.str u)) := by
  obtain ⟨t, settings, request, ht, hs, hr, hty, hdata, hurl, _⟩ :=
    dispatch_accessor_view cfg qs self self' options h ev src hidle ho hok
  refine ⟨t, ht, ?_⟩
  have htu : truthy (.str u) = true := truthy_str_of_ne u hu0
  have hts : truthy (.obj settings) = true := rfl
  unfold getSARequestFullURL
  simp only [hr, hurl, hu, htu, hs, hts, if_true, JsVal.get, hty, hdata, Bool.true_and]
  by_cases hm : toUpperCase t ∈ ["POST", "PUT", "PATCH"]
  · have hb : _useRequestBodyForMethod (.str (toUpperCase t)) = true := (useBody_iff _).mpr hm
    simp [hb, hm]
  · have hb : _useRequestBodyForMethod (.str (toUpperCase t)) = false := by
      rw [← Bool.not_eq_true, useBody_iff]; exact hm
    by_cases hd : truthy (Obj.get src "data") = true
    · simp [hb, hm, hd]
    · simp [hb, hm, hd]

/-- C11, the code at an empty data object: after `requ` with type 'get' and data
an empty object the dispatch sends no query parameters and the url of the
settings is still 'my/url', but `getSARequestFullURL()` returns 'my/url?', since
it tests the data for presence only and not, as the dispatch does, for
emptiness. -/
theorem empty_data_full_url_differs :
    getSARequestFullURL plainQs (dispatched directConfig plainQs (.obj emptyDataOptions))
      = .ok (some (.str "my/url?")) ∧
    (dispatched directConfig plainQs (.obj emptyDataOptions))._request.map SARequest.queried
      = some [] ∧
    (dispatched directConfig plainQs (.obj emptyDataOptions))._request.map
      (fun r => r.calls.length) = some 2 ∧
    (getRequestSettings (dispatched directConfig plainQs (.obj emptyDataOptions))).get "url"
      = .str "my/url" ∧
    plainQs.stringify [] = "" :=
  ⟨rfl, rfl, rfl, rfl, rfl⟩

/-- The examples of the test suite for `getSARequestFullURL()`, and its value
before any dispatch. -/
theorem full_url_examples :
    getSARequestFullURL plainQs Request.new = .ok none ∧
    getSARequestFullURL plainQs (dispatched directConfig plainQs (.obj testOptions))
      = .ok (some (.str "my/url")) ∧
    getSARequestFullURL plainQs (dispatched directConfig plainQs (.obj fooBarOptions))
      = .ok (some (.str "my/url?foo=bar")) ∧
    (extendURL plainQs (.str "my/url") (.obj [("foo", .str "bar")])).toOption
      = some "my/url?foo=bar" ∧
    getSARequestFullURL plainQs
      (dispatched directConfig plainQs (.obj (fooBarBodyOptions "post")))
      = .ok (some (.str "my/url")) :=
  ⟨rfl, rfl, rfl, rfl, rfl⟩

/-! ## The callbacks of the options -/

theorem attachData_get_other (qs : QueryString) (method : String) (settings s1 : Obj)
    (r r2 : SARequest) (k : String) (h : attachData qs method settings r = .ok (s1, r2))
    (hk : k ≠ "url") : s1.get k = settings.get k := by
  unfold attachData at h
  by_cases hd : (truthy (settings.get "data") && !isEmpty (settings.get "data")) = true
  · simp only [hd, if_true] at h
    by_cases hb : _useRequestBodyForMethod (.str method) = true
    · simp only [hb, if_true, Except.ok.injEq, Prod.mk.injEq] at h
      rw [← h.1]
    · simp only [hb, Bool.false_eq_true, if_false] at h
      cases hu : extendURL qs (settings.get "url") (settings.get "data") with
      | error e => simp [hu] at h
      | ok url =>
        simp only [hu, Except.ok.injEq, Prod.mk.injEq] at h
        rw [← h.1, Obj.get_set]
        have : ("url" == k) = false := by simpa using fun e => hk e.symm
        simp [this]
  · simp only [hd, Bool.false_eq_true, if_false, Except.ok.injEq, Prod.mk.injEq] at h
    rw [← h.1]

theorem attachCallbacks_fresh (options : Obj) :
    (_attachCallbacks Deferred.fresh options).1.subscriptions =
      (if truthy (jsOr (options.get "success") (options.get "done")) then
          [(SubKind.done, jsOr (options.get "success") (options.get "done"))] else [])
      ++ (if truthy (jsOr (options.get "error") (options.get "fail")) then
          [(SubKind.fail, jsOr (options.get "error") (options.get "fail"))] else [])
      ++ (if truthy (jsOr (options.get "complete") (options.get "always")) then
          [(SubKind.always, jsOr (options.get "complete") (options.get "always"))] else []) := by
  unfold _attachCallbacks
  by_cases h1 : truthy (jsOr (options.get "success") (options.get "done")) = true <;>
  by_cases h2 : truthy (jsOr (options.get "error") (options.get "fail")) = true <;>
  by_cases h3 : truthy (jsOr (options.get "complete") (options.get "always")) = true <;>
  simp [h1, h2, h3, Deferred.subscribe, Deferred.fresh]

/-- C14 as amended: in every direct dispatch of an options object, the callback
subscribed at `done` is the one under `success` or, when `success` is absent
(falsy), the one under its alias `done`; likewise `error` or else `fail` at
`fail`, and `complete` or else `always` at `always`; these are the only
subscriptions, in this order, and none is made for a pair that is absent. The
dispatch of well-typed options returns. -/
theorem callbacks_wired_by_field_or_alias (cfg : Config) (qs : QueryString) (self : Request)
    (options : JsVal) (src : Obj) (hidle : self._requXhr = none)
    (ho : effectiveOptions cfg options = .obj src) :
    (wellTyped cfg (effectiveOptions cfg options) = true →
      ∃ self' ev,
        sendUsingSuperAgent cfg qs self options = .ok (some Handle.dispatched, self', ev)) ∧
    ∀ h self' ev, sendUsingSuperAgent cfg qs self options = .ok (h, self', ev) →
      ∃ d, self'._deferred = some d ∧ d.state = .pending ∧
        d.subscriptions =
          (if truthy (jsOr (Obj.get src "success") (Obj.get src "done")) then
              [(SubKind.done, jsOr (Obj.get src "success") (Obj.get src "done"))] else [])
          ++ (if truthy (jsOr (Obj.get src "error") (Obj.get src "fail")) then
              [(SubKind.fail, jsOr (Obj.get src "error") (Obj.get src "fail"))] else [])
          ++ (if truthy (jsOr (Obj.get src "complete") (Obj.get src "always")) then
              [(SubKind.always, jsOr (Obj.get src "complete") (Obj.get src "always"))]
            else []) := by
  refine ⟨fun hwt => sendUsingSuperAgent_returns cfg qs self options hidle hwt, ?_⟩
  intro h self' ev hok
  obtain ⟨t, fn, request1, settings1, request2, settings2, request3, _, _, _, h3, h4, _, _,
    es, _⟩ := dispatch_of_obj cfg qs self self' options h ev src hidle ho hok
  have key : ∀ k, k ≠ "url" → k ≠ "headers" → k ≠ "type" →
      Obj.has _defaultSettings k = false → settings2.get k = Obj.get src k := by
    intro k k1 k2 k3 k4
    rw [forceContentLength_get _ _ _ _ h4 k2, attachData_get_other _ _ _ _ _ _ _ h3 k1,
      get_set_type _ _ _ k3, mergedOptions_get_other _ _ k4]
  refine ⟨_, by rw [es], (attachCallbacks_pending Deferred.fresh settings2 rfl).1, ?_⟩
  rw [attachCallbacks_fresh,
    key "success" (by decide) (by decide) (by decide) (by rfl),
    key "done" (by decide) (by decide) (by decide) (by rfl),
    key "error" (by decide) (by decide) (by decide) (by rfl),
    key "fail" (by decide) (by decide) (by decide) (by rfl),
    key "complete" (by decide) (by decide) (by decide) (by rfl),
    key "always" (by decide) (by decide) (by decide) (by rfl)]

/-- C14 as amended, an example: with callbacks under `success` and `done` the
only subscription is the callback of `success`, at `done`. -/
theorem callbacks_wired_by_field_or_alias_witness :
    Request.new._requXhr = none ∧
    (∀ h self' ev,
      sendUsingSuperAgent directConfig plainQs Request.new (.obj aliasOptions)
        = .ok (h, self', ev) →
      ∃ d, self'._deferred = some d ∧ d.state = .pending ∧
        d.subscriptions =
          (if truthy (jsOr (Obj.get aliasOptions "success") (Obj.get aliasOptions "done")) then
              [(SubKind.done, jsOr (Obj.get aliasOptions "success")
                (Obj.get aliasOptions "done"))] else [])
          ++ (if truthy (jsOr (Obj.get aliasOptions "error") (Obj.get aliasOptions "fail")) then
              [(SubKind.fail, jsOr (Obj.get aliasOptions "error")
                (Obj.get aliasOptions "fail"))] else [])
          ++ (if truthy (jsOr (Obj.get aliasOptions "complete")
                (Obj.get aliasOptions "always")) then
              [(SubKind.always, jsOr (Obj.get aliasOptions "complete")
                (Obj.get aliasOptions "always"))]
            else [])) ∧
    (dispatched directConfig plainQs (.obj aliasOptions))._deferred.map
      (fun d => d.subscriptions) = some [(SubKind.done, JsVal.fn 1)] :=
  ⟨rfl, (callbacks_wired_by_field_or_alias directConfig plainQs Request.new (.obj aliasOptions)
    aliasOptions rfl rfl).2, rfl⟩

/-- C14 as stated fails when a field and its alias are both supplied: with a
callback under `success` and another under `done`, the callback of `done` is
supplied by the caller and subscribed nowhere; the subscriptions at `done` are
the callback of `success` alone. -/
theorem alias_dropped_when_both_supplied :
    Obj.get aliasOptions "success" = .fn 1 ∧ Obj.get aliasOptions "done" = .fn 2 ∧
    ∃ d, (dispatched directConfig plainQs (.obj aliasOptions))._deferred = some d ∧
      d.doneCallbacks = [.fn 1] ∧
      JsVal.fn 2 ∉ d.doneCallbacks ∧
      ∀ kind, (kind, JsVal.fn 2) ∉ d.subscriptions := by
  refine ⟨rfl, rfl, _, rfl, rfl, ?_, ?_⟩
  · intro hm
    have e : (JsVal.fn 2 ∈ [JsVal.fn 1]) := hm
    simp at e
  · intro kind hm
    have e : ((kind, JsVal.fn 2) ∈ [(SubKind.done, JsVal.fn 1)]) := hm
    simp at e

/-! ## One settlement per dispatch -/

theorem resolveWith_pending (d : Deferred) (c : Receiver) (args : List Arg)
    (h : d.state = .pending) :
    d.resolveWith c args =
      ({ d with state := .resolved c args }, d.onResolve.map (fun cb => Event.invoke cb c args)) := by
  unfold Deferred.resolveWith
  simp [h]

theorem rejectWith_pending (d : Deferred) (c : Receiver) (args : List Arg)
    (h : d.state = .pending) :
    d.rejectWith c args =
      ({ d with state := .rejected c args }, d.onReject.map (fun cb => Event.invoke cb c args)) := by
  unfold Deferred.rejectWith
  simp [h]

theorem runCallbacks_returning (throws : Nat → Bool) (c : Receiver) (a : List Arg)
    (cbs : List JsVal) (h : ∀ cb ∈ cbs, callThrows throws cb = false) :
    runCallbacks throws c a cbs = (cbs.map (fun cb => Event.invoke cb c a), none) := by
  induction cbs with
  | nil => rfl
  | cons cb rest ih =>
    have h1 := h cb (List.mem_cons_self _ _)
    have h2 := ih (fun x hx => h x (List.mem_cons_of_mem _ hx))
    cases cb <;> simp [callThrows] at h1
    simp [runCallbacks, h1, h2]

theorem runCallbacks_uncaught (throws : Nat → Bool) (c : Receiver) (a : List Arg)
    (cbs : List JsVal) :
    (runCallbacks throws c a cbs).2 = none ↔ ∀ cb ∈ cbs, callThrows throws cb = false := by
  induction cbs with
  | nil => simp [runCallbacks]
  | cons cb rest ih =>
    rw [List.forall_mem_cons]
    cases cb
    case fn id =>
      have e : callThrows throws (.fn id) = throws id := rfl
      rw [e]
      by_cases ht : throws id = true
      · simp [runCallbacks, ht]
      · simp only [Bool.not_eq_true] at ht
        simp [runCallbacks, ht, ih]
    all_goals
      refine ⟨fun h => ?_, fun h => ?_⟩
      · simp [runCallbacks] at h
      · exact absurd h.1 (by simp [callThrows])

theorem mem_onResolve (d : Deferred) (cb : JsVal) (h : cb ∈ d.onResolve) :
    ∃ sub ∈ d.subscriptions, sub.2 = cb := by
  simp only [Deferred.onResolve, List.mem_filterMap] at h
  obtain ⟨sub, hm, e⟩ := h
  refine ⟨sub, hm, ?_⟩
  cases hk : sub.1 <;> simp [hk] at e <;> exact e

theorem mem_onReject (d : Deferred) (cb : JsVal) (h : cb ∈ d.onReject) :
    ∃ sub ∈ d.subscriptions, sub.2 = cb := by
  simp only [Deferred.onReject, List.mem_filterMap] at h
  obtain ⟨sub, hm, e⟩ := h
  refine ⟨sub, hm, ?_⟩
  cases hk : sub.1 <;> simp [hk] at e <;> exact e

theorem resolveWithThrowing_returning (throws : Nat → Bool) (d : Deferred) (c : Receiver)
    (a : List Arg) (hq : ∀ sub ∈ d.subscriptions, callThrows throws sub.2 = false) :
    d.resolveWithThrowing throws c a = ((d.resolveWith c a).1, (d.resolveWith c a).2, none) := by
  unfold Deferred.resolveWithThrowing Deferred.resolveWith
  have hr := runCallbacks_returning throws c a d.onResolve (fun cb hcb => by
    obtain ⟨sub, hm, e⟩ := mem_onResolve d cb hcb
    rw [← e]
    exact hq sub hm)
  cases d.state <;> simp [hr]

theorem rejectWithThrowing_returning (throws : Nat → Bool) (d : Deferred) (c : Receiver)
    (a : List Arg) (hq : ∀ sub ∈ d.subscriptions, callThrows throws sub.2 = false) :
    d.rejectWithThrowing throws c a = ((d.rejectWith c a).1, (d.rejectWith c a).2, none) := by
  unfold Deferred.rejectWithThrowing Deferred.rejectWith
  have hr := runCallbacks_returning throws c a d.onReject (fun cb hcb => by
    obtain ⟨sub, hm, e⟩ := mem_onReject d cb hcb
    rw [← e]
    exact hq sub hm)
  cases d.state <;> simp [hr]

/-- With callbacks that return, the completion handler with callbacks that may
throw does what `_onSARequestEnd` does, and no exception leaves it. -/
theorem onSARequestEndThrowing_returning (throws : Nat → Bool) (cfg : Config) (self : Request)
    (dfd : Deferred) (err : JsVal) (response : Option SAResponse) (s : Request)
    (ev : List Event) (hd : self._deferred = some dfd)
    (hafter : (isFunction cfg._onAfterSARequest && callThrows throws cfg._onAfterSARequest)
      = false)
    (hq : ∀ sub ∈ dfd.subscriptions, callThrows throws sub.2 = false)
    (h : _onSARequestEnd cfg self err response = .ok (s, ev)) :
    _onSARequestEndThrowing throws cfg self err response = ⟨s, ev, none⟩ := by
  unfold _onSARequestEnd at h
  unfold _onSARequestEndThrowing
  simp only [hafter, Bool.false_eq_true, if_false]
  cases hx : self._requXhr with
  | none => simp [hx] at h
  | some requXhr =>
    simp only [hx, hd] at h ⊢
    by_cases he : truthy err = true
    · simp only [he, if_true, Except.ok.injEq, Prod.mk.injEq] at h ⊢
      rw [rejectWithThrowing_returning throws dfd _ _ hq, ← h.1, ← h.2]
      rfl
    · simp only [he, Bool.false_eq_true, if_false] at h ⊢
      split at h
      · rename_i hs
        simp only [Except.ok.injEq, Prod.mk.injEq] at h
        simp only [hs, if_true]
        rw [rejectWithThrowing_returning throws dfd _ _ hq, ← h.1, ← h.2]
        rfl
      · rename_i hs
        simp only [hs, Bool.false_eq_true, if_false]
        cases response with
        | none => simp at h
        | some r =>
          simp only [Except.ok.injEq, Prod.mk.injEq] at h
          show thenClear self _ _ (dfd.resolveWithThrowing throws _ _) = _
          rw [resolveWithThrowing_returning throws dfd _ _ hq, ← h.1, ← h.2]
          rfl

theorem resolveWithThrowing_fst (throws : Nat → Bool) (d : Deferred) (c : Receiver)
    (a : List Arg) : (d.resolveWithThrowing throws c a).1 = (d.resolveWith c a).1 := by
  unfold Deferred.resolveWithThrowing Deferred.resolveWith
  cases d.state <;> rfl

theorem rejectWithThrowing_fst (throws : Nat → Bool) (d : Deferred) (c : Receiver)
    (a : List Arg) : (d.rejectWithThrowing throws c a).1 = (d.rejectWith c a).1 := by
  unfold Deferred.rejectWithThrowing Deferred.rejectWith
  cases d.state <;> rfl

theorem thenClear_deferred (self : Request) (requXhr : Handle) (ev0 : List Event)
    (settled : Deferred × List Event × Option Uncaught) :
    (thenClear self requXhr ev0 settled).self._deferred = some settled.1 ∧
      (thenClear self requXhr ev0 settled).self._settings = self._settings := by
  unfold thenClear
  cases settled.2.2 <;> exact ⟨rfl, rfl⟩

/-- Whether or not the callbacks of the settlement throw, the completion handler
settles the deferred as `_onSARequestEnd` does and leaves the settings alone,
when the after-request callback returns. -/
theorem onSARequestEndThrowing_settlement (throws : Nat → Bool) (cfg : Config) (self : Request)
    (dfd : Deferred) (err : JsVal) (response : Option SAResponse) (s : Request)
    (ev : List Event) (hd : self._deferred = some dfd)
    (hafter : (isFunction cfg._onAfterSARequest && callThrows throws cfg._onAfterSARequest)
      = false)
    (h : _onSARequestEnd cfg self err response = .ok (s, ev)) :
    (_onSARequestEndThrowing throws cfg self err response).self._deferred = s._deferred ∧
      (_onSARequestEndThrowing throws cfg self err response).self._settings = s._settings := by
  unfold _onSARequestEnd at h
  unfold _onSARequestEndThrowing
  simp only [hafter, Bool.false_eq_true, if_false]
  cases hx : self._requXhr with
  | none => simp [hx] at h
  | some requXhr =>
    simp only [hx, hd] at h ⊢
    by_cases he : truthy err = true
    · simp only [he, if_true, Except.ok.injEq, Prod.mk.injEq] at h ⊢
      rw [(thenClear_deferred _ _ _ _).1, (thenClear_deferred _ _ _ _).2,
        rejectWithThrowing_fst, ← h.1]
      exact ⟨rfl, rfl⟩
    · simp only [he, Bool.false_eq_true, if_false] at h ⊢
      split at h
      · rename_i hs
        simp only [Except.ok.injEq, Prod.mk.injEq] at h
        simp only [hs, if_true]
        rw [(thenClear_deferred _ _ _ _).1, (thenClear_deferred _ _ _ _).2,
          rejectWithThrowing_fst, ← h.1]
        exact ⟨rfl, rfl⟩
      · rename_i hs
        simp only [hs, Bool.false_eq_true, if_false]
        cases response with
        | none => simp at h
        | some r =>
          simp only [Except.ok.injEq, Prod.mk.injEq] at h
          show (thenClear self _ _ (dfd.resolveWithThrowing throws _ _)).self._deferred = _ ∧
            (thenClear self _ _ (dfd.resolveWithThrowing throws _ _)).self._settings = _
          rw [(thenClear_deferred _ _ _ _).1, (thenClear_deferred _ _ _ _).2,
            resolveWithThrowing_fst, ← h.1]
          exact ⟨rfl, rfl⟩

/-- The completion handler clears the in-flight slot of an instance with an
outstanding dispatch exactly when no exception leaves it: every path ends with
the settlement followed by `self._requXhr = null`. -/
theorem slot_cleared_iff_no_exception (throws : Nat → Bool) (cfg : Config) (self : Request)
    (requXhr : Handle) (err : JsVal) (response : Option SAResponse)
    (hx : self._requXhr = some requXhr) :
    (_onSARequestEndThrowing throws cfg self err response).self._requXhr = none ↔
      (_onSARequestEndThrowing throws cfg self err response).uncaught = none := by
  unfold _onSARequestEndThrowing
  have hclear : ∀ (hdl : Handle) (ev0 : List Event)
      (r : Deferred × List Event × Option Uncaught),
      (thenClear self hdl ev0 r).self._requXhr = none ↔ (thenClear self hdl ev0 r).uncaught = none := by
    intro hdl ev0 r
    unfold thenClear
    cases r.2.2 <;> simp
  by_cases ha : (isFunction cfg._onAfterSARequest && callThrows throws cfg._onAfterSARequest)
      = true
  · simp [ha, hx]
  · simp only [ha, Bool.false_eq_true, if_false, hx]
    by_cases he : truthy err = true
    · simp only [he, if_true]
      cases self._deferred with
      | none => simp
      | some dfd => exact hclear _ _ _
    · simp only [he, Bool.false_eq_true, if_false]
      split
      · cases self._deferred with
        | none => simp
        | some dfd => exact hclear _ _ _
      · split
        · exact hclear _ _ _
        · simp

/-- The completion of an outstanding direct dispatch when the callbacks return:
for every error and response, the response absent or of neither shape included,
`_onSARequestEnd` returns, without the exception of a read on a missing response;
it settles the pending deferred by exactly one call, of `resolveWith` or of
`rejectWith`, whose arguments hold the handle with readyState 4 and
`superagentResponse` the response delivered; it clears the in-flight handle of the
instance, and a subsequent dispatch of well-typed options on that instance is
accepted: it returns a handle. -/
theorem returning_completion_settles_and_clears (cfg : Config) (qs : QueryString)
    (self0 self : Request) (options : JsVal) (h : Option Handle) (ev : List Event)
    (err : JsVal) (response : Option SAResponse) (hidle : self0._requXhr = none)
    (hok : sendUsingSuperAgent cfg qs self0 options = .ok (h, self, ev)) :
    ∃ self'' ev' dfd handle args,
      _onSARequestEnd cfg self err response = .ok (self'', ev') ∧
      self._deferred = some dfd ∧ dfd.state = .pending ∧
      ((self''._deferred = some (dfd.resolveWith self.receiver args).1 ∧
          ev' = _invokeAfterSARequestCallback cfg err response
            ++ (dfd.resolveWith self.receiver args).2) ∨
        (self''._deferred = some (dfd.rejectWith self.receiver args).1 ∧
          ev' = _invokeAfterSARequestCallback cfg err response
            ++ (dfd.rejectWith self.receiver args).2)) ∧
      Arg.handle handle ∈ args ∧
      handle.readyState = 4 ∧ handle.superagentResponse = some response ∧
      self''._requXhr = none ∧
      ∀ options', wellTyped cfg (effectiveOptions cfg options') = true →
        ∃ self3 ev3,
          sendUsingSuperAgent cfg qs self'' options' = .ok (some Handle.dispatched, self3, ev3) := by
  obtain ⟨hx, dfd, hd, hp⟩ := dispatch_outstanding cfg qs self0 self options h ev hidle hok
  have next : ∀ self'' : Request, self''._requXhr = none →
      ∀ options', wellTyped cfg (effectiveOptions cfg options') = true →
        ∃ self3 ev3,
          sendUsingSuperAgent cfg qs self'' options' = .ok (some Handle.dispatched, self3, ev3) :=
    fun self'' hn options' hwt => sendUsingSuperAgent_returns cfg qs self'' options' hn hwt
  unfold _onSARequestEnd
  simp only [hx, hd]
  by_cases he : truthy err = true
  · simp only [he, if_true]
    apply Exists.intro
    apply Exists.intro
    refine Exists.intro dfd ?_
    apply Exists.intro
    apply Exists.intro
    refine ⟨rfl, rfl, hp, ?_, ?_, ?_, ?_, ?_, ?_⟩
    · exact Or.inr ⟨rfl, rfl⟩
    · exact List.mem_cons_self _ _
    · rfl
    · rfl
    · rfl
    · exact next _ rfl
  · simp only [he, Bool.false_eq_true, if_false]
    split
    · apply Exists.intro
      apply Exists.intro
      refine Exists.intro dfd ?_
      apply Exists.intro
      apply Exists.intro
      refine ⟨rfl, rfl, hp, ?_, ?_, ?_, ?_, ?_, ?_⟩
      · exact Or.inr ⟨rfl, rfl⟩
      · exact List.mem_cons_self _ _
      · rfl
      · rfl
      · rfl
      · exact next _ rfl
    · rename_i hs
      cases response with
      | none => exact absurd rfl hs
      | some r =>
        apply Exists.intro
        apply Exists.intro
        refine Exists.intro dfd ?_
        apply Exists.intro
        apply Exists.intro
        refine ⟨rfl, rfl, hp, ?_, ?_, ?_, ?_, ?_, ?_⟩
        · exact Or.inl ⟨rfl, rfl⟩
        · exact List.mem_cons_of_mem _ (List.mem_cons_of_mem _ (List.mem_cons_self _ _))
        · rfl
        · rfl
        · rfl
        · exact next _ rfl


/-- The completion of an outstanding direct dispatch whose callbacks return, in
the handler with callbacks that may throw: for every error and response no
exception leaves the handler, the pending deferred is settled by one call of
`resolveWith` or of `rejectWith` whose arguments hold the handle with readyState 4
and `superagentResponse` the response delivered, the in-flight slot is cleared
and a subsequent dispatch of well-typed options on the instance returns a
handle. -/
theorem completion_of_returning_callbacks (throws : Nat → Bool) (cfg : Config)
    (qs : QueryString) (self0 self : Request) (options : JsVal) (h : Option Handle)
    (ev : List Event) (err : JsVal) (response : Option SAResponse)
    (hidle : self0._requXhr = none)
    (hok : sendUsingSuperAgent cfg qs self0 options = .ok (h, self, ev))
    (hafter : (isFunction cfg._onAfterSARequest && callThrows throws cfg._onAfterSARequest)
      = false)
    (hq : ∀ d, self._deferred = some d → ∀ sub ∈ d.subscriptions,
      callThrows throws sub.2 = false) :
    ∃ self'' ev' dfd handle args,
      _onSARequestEndThrowing throws cfg self err response = ⟨self'', ev', none⟩ ∧
      self._deferred = some dfd ∧ dfd.state = .pending ∧
      ((self''._deferred = some (dfd.resolveWith self.receiver args).1 ∧
          ev' = _invokeAfterSARequestCallback cfg err response
            ++ (dfd.resolveWith self.receiver args).2) ∨
        (self''._deferred = some (dfd.rejectWith self.receiver args).1 ∧
          ev' = _invokeAfterSARequestCallback cfg err response
            ++ (dfd.rejectWith self.receiver args).2)) ∧
      Arg.handle handle ∈ args ∧
      handle.readyState = 4 ∧ handle.superagentResponse = some response ∧
      self''._requXhr = none ∧
      ∀ options', wellTyped cfg (effectiveOptions cfg options') = true →
        ∃ self3 ev3,
          sendUsingSuperAgent cfg qs self'' options' = .ok (some Handle.dispatched, self3, ev3) := by
  obtain ⟨self'', ev', dfd, handle, args, hc, hd, rest⟩ :=
    returning_completion_settles_and_clears cfg qs self0 self options h ev err response hidle hok
  exact ⟨self'', ev', dfd, handle, args,
    onSARequestEndThrowing_returning throws cfg self dfd err response self'' ev' hd hafter
      (hq dfd hd) hc, hd, rest⟩

/-- C15 at a callback that throws: after `requ` of the test options with a
`success` callback, the completion with the response of the test suite resolves
the deferred and calls the callback; when the callback throws, the exception
leaves `_onSARequestEnd` before `self._requXhr = null`, so the slot still holds
the handle, now with readyState 4, and the next dispatch on the instance is
refused: it reports the instance as busy and returns null. The same happens with
a string under `success`, whose call throws a TypeError. With a callback that
returns, the slot is cleared and the next dispatch returns a handle. -/
theorem throwing_callback_leaves_instance_busy :
    (sendUsingSuperAgent directConfig plainQs Request.new (.obj successOptions)).toOption.map
        (fun r => r.1) = some (some Handle.dispatched) ∧
    (_onSARequestEndThrowing (fun id => id == 7) directConfig
        (dispatched directConfig plainQs (.obj successOptions)) .null
        (some fakeResponseObj)).uncaught = some (.thrownBy (.fn 7)) ∧
    ((_onSARequestEndThrowing (fun id => id == 7) directConfig
        (dispatched directConfig plainQs (.obj successOptions)) .null
        (some fakeResponseObj)).self._requXhr.map (fun x => x.readyState)) = some 4 ∧
    (sendUsingSuperAgent directConfig plainQs
        (_onSARequestEndThrowing (fun id => id == 7) directConfig
          (dispatched directConfig plainQs (.obj successOptions)) .null
          (some fakeResponseObj)).self (.obj testOptions)).toOption.map
        (fun r => (r.1, r.2.2)) = some (none, [.consoleError busyMessage]) ∧
    (_onSARequestEndThrowing (fun _ => false) directConfig
        (dispatched directConfig plainQs (.obj stringSuccessOptions)) .null
        (some fakeResponseObj)).uncaught = some .typeError ∧
    (sendUsingSuperAgent directConfig plainQs
        (_onSARequestEndThrowing (fun _ => false) directConfig
          (dispatched directConfig plainQs (.obj stringSuccessOptions)) .null
          (some fakeResponseObj)).self (.obj testOptions)).toOption.map
        (fun r => (r.1, r.2.2)) = some (none, [.consoleError busyMessage]) ∧
    (_onSARequestEndThrowing (fun _ => false) directConfig
        (dispatched directConfig plainQs (.obj successOptions)) .null
        (some fakeResponseObj)).uncaught = none ∧
    (sendUsingSuperAgent directConfig plainQs
        (_onSARequestEndThrowing (fun _ => false) directConfig
          (dispatched directConfig plainQs (.obj successOptions)) .null
          (some fakeResponseObj)).self (.obj testOptions)).toOption.map
        (fun r => r.1) = some (some Handle.dispatched) :=
  ⟨rfl, rfl, rfl, rfl, rfl, rfl, rfl, rfl⟩

/-! ## Event listeners -/

theorem registerAll_listeners (regs : List (String × JsVal)) :
    ∀ cfg : Config,
      (registerAll cfg regs)._saEventListeners = Obj.extend cfg._saEventListeners regs := by
  induction regs with
  | nil => intro cfg; rfl
  | cons r rs ih =>
    intro cfg
    unfold registerAll at ih ⊢
    rw [List.foldl_cons, ih]
    rfl

theorem Obj.get_of_mem_nodup (o : Obj) (k : String) (v : JsVal) (hm : (k, v) ∈ o)
    (hn : (Obj.keys o).Nodup) : Obj.get o k = v := by
  induction o with
  | nil => simp at hm
  | cons p o ih =>
    simp only [Obj.keys, List.map_cons, List.nodup_cons] at hn
    rw [Obj.get_cons]
    rcases List.mem_cons.mp hm with e | hm'
    · have hk : Obj.has o k = false := by
        rw [← Bool.not_eq_true, ← Obj.mem_keys_iff]
        rw [← e] at hn
        exact hn.1
      rw [hk, ← e]
      simp
    · have hk : Obj.has o k = true := by
        rw [← Obj.mem_keys_iff]
        exact List.mem_map.mpr ⟨(k, v), hm', rfl⟩
      rw [hk]
      simpa using ih hm' hn.2

theorem onCalls_call (r : SARequest) (c : SACall) (hc : ∀ e cb, c ≠ .on e cb) :
    (r.call c).onCalls = r.onCalls := by
  simp only [SARequest.onCalls, SARequest.call, List.filterMap_append]
  cases c <;> first | exact absurd rfl (hc _ _) | simp

theorem onCalls_append_sets (r : SARequest) (fields : Obj) :
    ({ r with calls := r.calls ++ fields.map (fun p => SACall.set p.1 p.2) } : SARequest).onCalls
      = r.onCalls := by
  simp only [SARequest.onCalls, List.filterMap_append]
  rw [List.append_right_eq_self, List.filterMap_eq_nil_iff]
  intro c hc
  simp only [List.mem_map] at hc
  obtain ⟨p, _, rfl⟩ := hc
  rfl

theorem setTypeHeaders_onCalls (contentType dataType : JsVal) (r : SARequest) :
    (setTypeHeaders contentType dataType r).onCalls = r.onCalls := by
  unfold setTypeHeaders
  by_cases h1 : truthy contentType = true <;> by_cases h2 : truthy dataType = true <;>
    simp only [h1, h2, if_true, if_false, Bool.false_eq_true]
  · rw [onCalls_call _ _ (by simp), onCalls_call _ _ (by simp)]
  · rw [onCalls_call _ _ (by simp)]
  · rw [onCalls_call _ _ (by simp)]

theorem applyHeaders_onCalls (settings : Obj) (r r' : SARequest)
    (h : applyHeaders settings r = .ok r') : r'.onCalls = r.onCalls := by
  unfold applyHeaders at h
  split at h
  · unfold _setHeaders at h
    split at h
    · rw [setHeaders_fold] at h
      simp only [Except.ok.injEq] at h
      rw [← h, onCalls_append_sets]
    · simp only [Except.ok.injEq] at h
      rw [← h]
    · simp only [Except.ok.injEq] at h
      rw [← h]
    · simp at h
  · simp only [Except.ok.injEq] at h
    rw [← h]

theorem attachData_onCalls (qs : QueryString) (method : String) (settings s1 : Obj)
    (r r2 : SARequest) (h : attachData qs method settings r = .ok (s1, r2)) :
    r2.onCalls = r.onCalls := by
  unfold attachData at h
  by_cases hd : (truthy (settings.get "data") && !isEmpty (settings.get "data")) = true
  · simp only [hd, if_true] at h
    by_cases hb : _useRequestBodyForMethod (.str method) = true
    · simp only [hb, if_true, Except.ok.injEq, Prod.mk.injEq] at h
      rw [← h.2, onCalls_call _ _ (by simp)]
    · simp only [hb, Bool.false_eq_true, if_false] at h
      cases hu : extendURL qs (settings.get "url") (settings.get "data") with
      | error e => simp [hu] at h
      | ok url =>
        simp only [hu, Except.ok.injEq, Prod.mk.injEq] at h
        rw [← h.2, onCalls_call _ _ (by simp)]
  · simp only [hd, Bool.false_eq_true, if_false, Except.ok.injEq, Prod.mk.injEq] at h
    rw [← h.2]

/-- The handlers subscribed by a direct dispatch: one per entry of the registry,
in order, each made by `_.bind` from the callback of its entry and the instance. -/
theorem dispatch_onCalls (cfg : Config) (qs : QueryString) (self self' : Request)
    (options : JsVal) (h : Option Handle) (ev : List Event) (hidle : self._requXhr = none)
    (hok : sendUsingSuperAgent cfg qs self options = .ok (h, self', ev)) :
    ∃ request, self'._request = some request ∧
      request.onCalls
        = cfg._saEventListeners.map (fun p => (p.1, (⟨p.2, .adapter⟩ : BoundFn))) := by
  obtain ⟨settings0, m, request0, request1, settings1, request2, settings2, request3, _, _,
    h1, h2, h3, _, h5, _, es, _⟩ := sendUsingSuperAgent_inv cfg qs self self' options h ev
      hidle hok
  refine ⟨_, by rw [es], ?_⟩
  rw [onCalls_call _ _ (by simp), applyHeaders_onCalls _ _ _ h5, setTypeHeaders_onCalls,
    attachData_onCalls _ _ _ _ _ _ h3, bindEventListeners_inv _ _ _ _ h2]
  unfold _makeSARequestInstance at h1
  split at h1
  · simp only [Except.ok.injEq] at h1
    rw [← h1]
    simp only [SARequest.onCalls, List.nil_append, List.filterMap_map]
    induction cfg._saEventListeners with
    | nil => rfl
    | cons p ps ih => simp [List.filterMap_cons, ih]
  · simp at h1

theorem length_eq_dedup_length (l1 l2 : List String) (hn : l1.Nodup)
    (hm : ∀ e, e ∈ l1 ↔ e ∈ l2) : l1.length = l2.dedup.length := by
  rw [← List.toFinset_card_of_nodup hn, ← List.card_toFinset]
  congr 1
  ext e
  simp [hm e]

/-- C13: for every sequence of registrations through `requ.setSAEventListener`
on an empty registry, each direct dispatch of well-typed options subscribes onto
its own native request exactly one handler per registered event name: the names
of the `on` calls are distinct and are the registered names, so there are as many
`on` calls as distinct names, a second dispatch makes as many again under the
same names, twice that number in all; and each handler the dispatch subscribed,
when invoked with any arguments, makes exactly one call, of the callback
registered last under its name, with the instance that made the dispatch as
receiver and the arguments of the invocation. -/
theorem one_handler_per_registered_event (cfg0 : Config) (regs : List (String × JsVal))
    (qs : QueryString) (self1 self2 : Request) (options1 options2 : JsVal)
    (h0 : cfg0._saEventListeners = [])
    (hidle1 : self1._requXhr = none) (hidle2 : self2._requXhr = none)
    (hwt1 : wellTyped (registerAll cfg0 regs)
      (effectiveOptions (registerAll cfg0 regs) options1) = true)
    (hwt2 : wellTyped (registerAll cfg0 regs)
      (effectiveOptions (registerAll cfg0 regs) options2) = true) :
    ∃ self1' ev1 r1 self2' ev2 r2,
      sendUsingSuperAgent (registerAll cfg0 regs) qs self1 options1
        = .ok (some Handle.dispatched, self1', ev1) ∧
      self1'._request = some r1 ∧
      sendUsingSuperAgent (registerAll cfg0 regs) qs self2 options2
        = .ok (some Handle.dispatched, self2', ev2) ∧
      self2'._request = some r2 ∧
      (r1.onCalls.map Prod.fst).Nodup ∧
      (∀ e, e ∈ r1.onCalls.map Prod.fst ↔ e ∈ regs.map Prod.fst) ∧
      r1.onCalls.length = (regs.map Prod.fst).dedup.length ∧
      r2.onCalls.map Prod.fst = r1.onCalls.map Prod.fst ∧
      (r1.onCalls ++ r2.onCalls).length = 2 * (regs.map Prod.fst).dedup.length ∧
      (∀ e handler, (e, handler) ∈ r1.onCalls →
        ∀ args, handler.invoke args = [⟨Obj.get regs e, .adapter, args⟩]) ∧
      ∀ e handler, (e, handler) ∈ r2.onCalls →
        ∀ args, handler.invoke args = [⟨Obj.get regs e, .adapter, args⟩] := by
  obtain ⟨self1', ev1, hok1⟩ := sendUsingSuperAgent_returns _ qs self1 options1 hidle1 hwt1
  obtain ⟨self2', ev2, hok2⟩ := sendUsingSuperAgent_returns _ qs self2 options2 hidle2 hwt2
  obtain ⟨r1, hr1, hc1⟩ := dispatch_onCalls _ qs self1 self1' options1 _ ev1 hidle1 hok1
  obtain ⟨r2, hr2, hc2⟩ := dispatch_onCalls _ qs self2 self2' options2 _ ev2 hidle2 hok2
  have hreg : (registerAll cfg0 regs)._saEventListeners = Obj.extend [] regs := by
    rw [registerAll_listeners, h0]
  rw [hreg] at hc1 hc2
  have hnd : (List.map Prod.fst (Obj.extend [] regs)).Nodup :=
    Obj.keys_extend_nodup [] regs List.nodup_nil
  have hmem : ∀ e, e ∈ List.map Prod.fst (Obj.extend [] regs) ↔ e ∈ regs.map Prod.fst := by
    intro e
    have a := Obj.mem_keys_iff (Obj.extend [] regs) e
    have b := Obj.mem_keys_iff regs e
    unfold Obj.keys at a b
    rw [a, b, Obj.has_extend]
    simp [Obj.has]
  have hlen : (Obj.extend [] regs).length = (regs.map Prod.fst).dedup.length := by
    rw [← length_eq_dedup_length _ _ hnd hmem, List.length_map]
  have hfst : ∀ l : Obj,
      (l.map (fun p => (p.1, (⟨p.2, .adapter⟩ : BoundFn)))).map Prod.fst = l.map Prod.fst := by
    intro l
    rw [List.map_map]
    rfl
  have hcall : ∀ e (handler : BoundFn),
      (e, handler) ∈ (Obj.extend [] regs).map (fun p => (p.1, (⟨p.2, .adapter⟩ : BoundFn))) →
      ∀ args, handler.invoke args = [⟨Obj.get regs e, .adapter, args⟩] := by
    intro e handler hm args
    simp only [List.mem_map, Prod.mk.injEq] at hm
    obtain ⟨p, hp, he, hh⟩ := hm
    have hp' : (e, p.2) ∈ Obj.extend [] regs := by rw [← he]; exact hp
    have hg := Obj.get_of_mem_nodup _ e p.2 hp' hnd
    rw [Obj.get_extend] at hg
    have hh' : Obj.has regs e = true := by
      have := (hmem e).mp (List.mem_map.mpr ⟨(e, p.2), hp', rfl⟩)
      exact (Obj.mem_keys_iff regs e).mp this
    rw [hh'] at hg
    simp only [if_true] at hg
    rw [← hh, hg]
    rfl
  refine ⟨self1', ev1, r1, self2', ev2, r2, hok1, hr1, hok2, hr2, ?_, ?_, ?_, ?_, ?_, ?_, ?_⟩
  · rw [hc1, hfst]; exact hnd
  · rw [hc1, hfst]; exact hmem
  · rw [hc1, List.length_map]; exact hlen
  · rw [hc1, hc2]
  · rw [hc1, hc2, List.length_append, List.length_map, hlen]; omega
  · rw [hc1]; exact hcall
  · rw [hc2]; exact hcall

/-- C13, the example of the test suite: with 'request' and 'end' registered, one
dispatch makes two `on` calls, the last for 'end', two dispatches make four,
and invoking the last handler calls the callback of 'end' once, with the instance
as receiver; registering 'end' twice leaves one handler, of the callback
registered last. -/
theorem one_handler_per_registered_event_witness :
    (∃ self1' ev1 r1 self2' ev2 r2,
      sendUsingSuperAgent (registerAll directConfig [("request", .fn 1), ("end", .fn 2)])
          plainQs Request.new (.obj testOptions)
        = .ok (some Handle.dispatched, self1', ev1) ∧
      self1'._request = some r1 ∧
      sendUsingSuperAgent (registerAll directConfig [("request", .fn 1), ("end", .fn 2)])
          plainQs Request.new (.obj testOptions)
        = .ok (some Handle.dispatched, self2', ev2) ∧
      self2'._request = some r2 ∧
      (r1.onCalls.map Prod.fst).Nodup ∧
      (∀ e, e ∈ r1.onCalls.map Prod.fst ↔
        e ∈ [("request", JsVal.fn 1), ("end", JsVal.fn 2)].map Prod.fst) ∧
      r1.onCalls.length
        = ([("request", JsVal.fn 1), ("end", JsVal.fn 2)].map Prod.fst).dedup.length ∧
      r2.onCalls.map Prod.fst = r1.onCalls.map Prod.fst ∧
      (r1.onCalls ++ r2.onCalls).length
        = 2 * ([("request", JsVal.fn 1), ("end", JsVal.fn 2)].map Prod.fst).dedup.length ∧
      (∀ e handler, (e, handler) ∈ r1.onCalls →
        ∀ args, handler.invoke args
          = [⟨Obj.get [("request", JsVal.fn 1), ("end", JsVal.fn 2)] e, .adapter, args⟩]) ∧
      ∀ e handler, (e, handler) ∈ r2.onCalls →
        ∀ args, handler.invoke args
          = [⟨Obj.get [("request", JsVal.fn 1), ("end", JsVal.fn 2)] e, .adapter, args⟩]) ∧
    (dispatched listenerConfig plainQs (.obj testOptions))._request.map SARequest.onCalls
      = some [("request", ⟨.fn 1, .adapter⟩), ("end", ⟨.fn 2, .adapter⟩)] ∧
    ((dispatched listenerConfig plainQs (.obj testOptions))._request.map
        SARequest.onCalls).map (fun l => l.length + l.length) = some 4 ∧
    ((dispatched listenerConfig plainQs (.obj testOptions))._request.map
        SARequest.onCalls).map (fun l => l.getLast?.map (fun p => p.2.invoke []))
      = some (some [⟨.fn 2, .adapter, []⟩]) ∧
    (dispatched (registerAll directConfig [("end", .fn 1), ("end", .fn 2)]) plainQs
        (.obj testOptions))._request.map SARequest.onCalls = some [("end", ⟨.fn 2, .adapter⟩)] :=
  ⟨one_handler_per_registered_event directConfig [("request", .fn 1), ("end", .fn 2)] plainQs
    Request.new Request.new (.obj testOptions) (.obj testOptions) rfl rfl rfl rfl rfl,
    rfl, rfl, rfl, rfl⟩

end Reku
